import Mathlib

/-!
Verification of the Secure-Vault backend core against its specification.

The development shallowly embeds the cryptographic envelope code
(`src/utils/crypto.js`, `src/unnamed/part_000`), the MFA utilities
(`src/utils/mfa.js`, the `/mfa/verify` route handler and the MFA
middleware) and the access-control evaluator
(`src/utils/access-control.js`) as executable Lean functions.

Byte buffers are `List Nat` with each byte `< 256` where it matters.
External primitives of the Node runtime (the AES-256-GCM cipher,
PBKDF2, the RNG and the speakeasy TOTP library) are not part of the
repository; they are modelled as explicit deterministic functions
(for randomness: as injected entropy parameters), keeping exactly the
interface and the failure behaviour the repository code relies on.
-/

abbrev Bytes := List Nat

/-- Bytewise XOR of two buffers (truncating to the shorter one), the
combination step of the modelled stream of a GCM-class cipher. -/
def xorBytes (a b : Bytes) : Bytes := List.zipWith (fun x y => x ^^^ y) a b

/-- Models Node's `crypto.pbkdf2Sync` (an external primitive): an
arbitrary deterministic function of password, salt, iteration count and
digest name producing exactly `keyLen` bytes. -/
def pbkdf2Sync (password : String) (salt : Bytes) (iterations keyLen : Nat)
    (digest : String) : Bytes :=
  (List.range keyLen).map (fun i =>
    ((password.data.map Char.toNat).sum * 131 + salt.sum * 257 +
      iterations * 31 + (digest.data.map Char.toNat).sum * 7 + i * 97 + 13) % 256)

/-- Models the keystream of the AES-256-GCM cipher (external primitive):
a deterministic function of key and IV producing `n` bytes. -/
def keystream (key iv : Bytes) (n : Nat) : Bytes :=
  (List.range n).map (fun i => (key.sum * 37 + iv.sum * 101 + i * 59 + 7) % 256)

/-- Models the 16-byte GCM authentication tag (external primitive): a
deterministic function of key, IV, additional authenticated data and
ciphertext.  Its first byte is a modular checksum of all inputs, which
makes the model detect every single-byte change of IV or ciphertext. -/
def mkTag (key iv aad ct : Bytes) : Bytes :=
  ((key.sum + iv.sum + aad.sum + ct.sum) % 256) ::
    (List.range 15).map (fun i =>
      (key.sum * 3 + iv.sum * 5 + aad.sum * 11 + ct.sum * 13 + i * 17) % 256)

/-- Models `createCipheriv("aes-256-gcm", key, iv)` followed by
`setAAD`, `update`/`final` and `getAuthTag`: fails on a key that is not
32 bytes or an empty IV, otherwise returns ciphertext and tag. -/
def nodeGcmEncrypt (key iv aad pt : Bytes) : Except String (Bytes × Bytes) :=
  if key.length ≠ 32 then .error "Invalid key length"
  else if iv.length = 0 then .error "Invalid initialization vector"
  else
    let ct := xorBytes pt (keystream key iv pt.length)
    .ok (ct, mkTag key iv aad ct)

/-- Models `createDecipheriv("aes-256-gcm", key, iv)` followed by
`setAAD`, `setAuthTag`, `update`/`final`: fails on bad key length, empty
IV, a tag that is not 16 bytes, or tag mismatch (the GCM authentication
failure); otherwise returns the plaintext. -/
def nodeGcmDecrypt (key iv tag aad ct : Bytes) : Except String Bytes :=
  if key.length ≠ 32 then .error "Invalid key length"
  else if iv.length = 0 then .error "Invalid initialization vector"
  else if tag.length ≠ 16 then .error "Invalid authentication tag length"
  else if tag ≠ mkTag key iv aad ct then
    .error "Unsupported state or unable to authenticate data"
  else .ok (xorBytes ct (keystream key iv ct.length))

/-- The additional authenticated data `Buffer.from("secure-vault-file")`
used by `src/utils/crypto.js`. -/
def aadFile : Bytes := "secure-vault-file".data.map Char.toNat

/-- Result record of `encryptFileBuffer` (`src/utils/crypto.js`): the
envelope plus the salt/iv/tag metadata (the source hex-encodes the
metadata; the model keeps the raw bytes). -/
structure EncryptResult where
  encryptedData : Bytes
  salt : Bytes
  iv : Bytes
  tag : Bytes
deriving DecidableEq

/-- `encryptFileBuffer(fileBuffer, password, salt)` from
`src/utils/crypto.js`.  The two `crypto.randomBytes` draws (fallback
salt and IV) are injected as `randSalt` and `randIv`.  Envelope layout:
`fileSalt ++ iv ++ tag ++ ciphertext` with a 64-byte salt and a 16-byte
IV (`SALT_LENGTH = 64`, `IV_LENGTH = 16`). -/
def encryptFileBuffer (fileBuffer : Bytes) (password : String)
    (salt : Option Bytes) (randSalt randIv : Bytes) :
    Except String EncryptResult :=
  let fileSalt := salt.getD randSalt
  let key := pbkdf2Sync password fileSalt 100000 32 "sha512"
  match nodeGcmEncrypt key randIv aadFile fileBuffer with
  | .ok (encrypted, tag) =>
      .ok ⟨fileSalt ++ randIv ++ tag ++ encrypted, fileSalt, randIv, tag⟩
  | .error e => .error ("Encryption failed: " ++ e)

/-- `decryptFileBuffer(encryptedBuffer, password)` from
`src/utils/crypto.js`: slices the envelope as
`salt = [0,64) , iv = [64,80) , tag = [80,96) , ciphertext = [96,..)`,
re-derives the key and decrypts; any inner failure is caught and
re-thrown as a single wrapped decryption error. -/
def decryptFileBuffer (encryptedBuffer : Bytes) (password : String) :
    Except String Bytes :=
  let salt := encryptedBuffer.take 64
  let iv := (encryptedBuffer.drop 64).take 16
  let tag := (encryptedBuffer.drop 80).take 16
  let encrypted := encryptedBuffer.drop 96
  let key := pbkdf2Sync password salt 100000 32 "sha512"
  match nodeGcmDecrypt key iv tag aadFile encrypted with
  | .ok decrypted => .ok decrypted
  | .error e => .error ("Decryption failed: " ++ e)

/-- Value of one base64 alphabet character (`A-Z a-z 0-9 + /`); any
other character (including padding) is skipped, as Node's lenient
`Buffer.from(s, "base64")` does. -/
def b64val (c : Char) : Option Nat :=
  if 65 ≤ c.toNat ∧ c.toNat ≤ 90 then some (c.toNat - 65)
  else if 97 ≤ c.toNat ∧ c.toNat ≤ 122 then some (c.toNat - 97 + 26)
  else if 48 ≤ c.toNat ∧ c.toNat ≤ 57 then some (c.toNat - 48 + 52)
  else if c.toNat = 43 then some 62
  else if c.toNat = 47 then some 63
  else none

/-- Packs a stream of 6-bit values into bytes, four values to three
bytes, a two- or three-value remainder to one or two bytes. -/
def b64pack : List Nat → Bytes
  | a :: b :: c :: d :: rest =>
      (a * 4 + b / 16) :: ((b % 16) * 16 + c / 4) :: ((c % 4) * 64 + d) ::
        b64pack rest
  | [a, b] => [a * 4 + b / 16]
  | [a, b, c] => [a * 4 + b / 16, (b % 16) * 16 + c / 4]
  | _ => []

/-- Models `Buffer.from(key, "base64")` (external primitive). -/
def bufferFromBase64 (s : String) : Bytes :=
  b64pack (s.data.filterMap b64val)

namespace FileEncryption

/-- Constants of the `FileEncryption` class (`src/unnamed/part_000`):
`IV_LENGTH = 12`, `SALT_LENGTH = 16`, `TAG_LENGTH = 16`,
`KEY_LENGTH = 32`, `ITERATIONS = 100000`. -/
def IV_LENGTH : Nat := 12

def SALT_LENGTH : Nat := 16

def TAG_LENGTH : Nat := 16

def KEY_LENGTH : Nat := 32

def ITERATIONS : Nat := 100000

/-- `FileEncryption.deriveKey(password, salt)`. -/
def deriveKey (password : String) (salt : Bytes) : Bytes :=
  pbkdf2Sync password salt ITERATIONS KEY_LENGTH "sha256"

/-- Metadata record returned by `FileEncryption.encrypt` (the source
base64-encodes the fields; the model keeps raw bytes). -/
structure Metadata where
  salt : Bytes
  iv : Bytes
  tag : Bytes
  algorithm : String
deriving DecidableEq

/-- Result record of `FileEncryption.encrypt`. -/
structure FEResult where
  encryptedData : Bytes
  metadata : Metadata
deriving DecidableEq

/-- `FileEncryption.encrypt(fileBuffer, key)` (`src/unnamed/part_000`):
key is a base64 string, the two `crypto.randomBytes` draws (12-byte IV,
16-byte salt) are injected; no AAD is set; envelope layout is
`salt ++ iv ++ tag ++ ciphertext`; every inner failure is caught and
replaced by one generic encryption error. -/
def encrypt (fileBuffer : Bytes) (key : String) (randIv randSalt : Bytes) :
    Except String FEResult :=
  let keyBuffer := bufferFromBase64 key
  match nodeGcmEncrypt keyBuffer randIv [] fileBuffer with
  | .ok (encrypted, tag) =>
      .ok ⟨randSalt ++ randIv ++ tag ++ encrypted,
        ⟨randSalt, randIv, tag, "aes-256-gcm"⟩⟩
  | .error _ => .error "Failed to encrypt file"

/-- `FileEncryption.decrypt(encryptedBuffer, key)`
(`src/unnamed/part_000`): slices the envelope as
`salt = [0,16) , iv = [16,28) , tag = [28,44) , ciphertext = [44,..)`
(the salt is extracted and then unused — the key is raw), decrypts
without AAD; every inner failure is caught and replaced by the one
generic error string `Failed to decrypt file`. -/
def decrypt (encryptedBuffer : Bytes) (key : String) : Except String Bytes :=
  let iv := (encryptedBuffer.drop SALT_LENGTH).take IV_LENGTH
  let tag := (encryptedBuffer.drop (SALT_LENGTH + IV_LENGTH)).take TAG_LENGTH
  let encrypted := encryptedBuffer.drop (SALT_LENGTH + IV_LENGTH + TAG_LENGTH)
  let keyBuffer := bufferFromBase64 key
  match nodeGcmDecrypt keyBuffer iv tag [] encrypted with
  | .ok decrypted => .ok decrypted
  | .error _ => .error "Failed to decrypt file"

end FileEncryption

/-- Flips bit `b` of the byte at index `i` of a buffer. -/
def flipBit (l : Bytes) (i b : Nat) : Bytes := l.set i (l.getD i 0 ^^^ 2 ^ b)

/-- Access decision `{ allowed, reason? }` returned by the evaluator
(`src/utils/access-control.js`). -/
structure Decision where
  allowed : Bool
  reason : Option String := none
deriving DecidableEq

/-- `rule.config` of one `access_control_rules` row: the fields read by
`checkTimeRule` / `checkLocationRule`. -/
structure RuleConfig where
  startTime : String := ""
  endTime : String := ""
  countries : Option (List String) := none
deriving DecidableEq

/-- One `access_control_rules` row: a typed, enabled/disabled rule. -/
structure Rule where
  type : String
  enabled : Bool := true
  config : RuleConfig := {}
deriving DecidableEq

/-- The resource-embedded `file.access_control` policy object. -/
structure FileAccessControl where
  timeRestriction : Bool := false
  startTime : String := ""
  endTime : String := ""
  locationRestriction : Bool := false
  allowedCountries : Option (List String) := none
  expirationDate : Option Int := none
deriving DecidableEq

/-- The `file` argument of `checkAccess`: only the fields it reads. -/
structure VaultFile where
  user_id : String := ""
  access_control : Option FileAccessControl := none

/-- The `request` argument: client address and device fingerprint. -/
structure RequestContext where
  clientIP : String := ""
  deviceFingerprint : String := ""

/-- Injected collaborators and clock of the evaluator: `new Date()`
(minutes since midnight, epoch ms), `geoip.lookup(ip)?.country`, and the
`user_devices` authorization query (`.error` models a thrown query
failure, `.ok b` whether an authorized device row exists). -/
structure Env where
  nowMinutes : Nat := 0
  nowMs : Int := 0
  geoLookup : String → Option String := fun _ => none
  deviceAuthorized : String → Except String Bool := fun _ => .ok false

/-- Splitting a character list at `:` (the `timeString.split(":")` of
the source, written structurally so that it evaluates by reduction). -/
def splitOnColon : List Char → List (List Char)
  | [] => [[]]
  | c :: rest =>
      if c = ':' then [] :: splitOnColon rest
      else
        match splitOnColon rest with
        | g :: gs => (c :: g) :: gs
        | [] => [[c]]

/-- JS `Number()` on one split component: the empty string is 0, a
digit string is its value, anything else is `NaN` (modelled as
`none`). -/
def numberOfChars (cs : List Char) : Option Nat :=
  if cs.isEmpty then some 0
  else if cs.all Char.isDigit then
    some (cs.foldl (fun acc c => acc * 10 + (c.toNat - 48)) 0)
  else none

/-- `parseTime(timeString)`: `split(":")`, destructure the first two
components through `Number()`, `hours * 60 + minutes`.  A missing
second component is `Number(undefined) = NaN`; `NaN` propagates through
the arithmetic, so the result is `none` whenever either component is
`NaN`. -/
def parseTime (timeString : String) : Option Nat :=
  let parts := splitOnColon timeString.data
  let hours := numberOfChars (parts.getD 0 [])
  let minutes :=
    if 2 ≤ parts.length then numberOfChars (parts.getD 1 []) else none
  match hours, minutes with
  | some h, some m => some (h * 60 + m)
  | _, _ => none

namespace AccessControl

/-- The `currentTime < startTime || currentTime > endTime` test shared
by the file policy and `checkTimeRule`; a comparison against `NaN` is
false in JS, so a `none` bound never triggers a denial. -/
def timeOutsideWindow (env : Env) (startTime endTime : String) : Bool :=
  (match parseTime startTime with
    | some s => decide (env.nowMinutes < s)
    | none => false) ||
  (match parseTime endTime with
    | some e => decide (env.nowMinutes > e)
    | none => false)

/-- The `!geo || !accessControl.allowedCountries.includes(geo.country)`
test of the file policy's location branch. -/
def fileLocationDenied (env : Env) (ctx : RequestContext)
    (accessControl : FileAccessControl) : Bool :=
  match env.geoLookup ctx.clientIP with
  | none => true
  | some country =>
      ! ((accessControl.allowedCountries.getD []).contains country)

/-- The `new Date() > expirationDate` test of the file policy's
expiration branch. -/
def fileExpired (env : Env) (accessControl : FileAccessControl) : Bool :=
  match accessControl.expirationDate with
  | none => false
  | some exp => decide (env.nowMs > exp)

/-- `checkFileAccessControl(accessControl, request)`: time restriction,
then location restriction, then expiration, returning the first denial;
otherwise allowed. -/
def checkFileAccessControl (env : Env) (ctx : RequestContext)
    (accessControl : FileAccessControl) : Decision :=
  if accessControl.timeRestriction &&
      timeOutsideWindow env accessControl.startTime accessControl.endTime then
    ⟨false, some ("File access is restricted to " ++ accessControl.startTime
      ++ " - " ++ accessControl.endTime)⟩
  else if accessControl.locationRestriction &&
      accessControl.allowedCountries.isSome &&
      fileLocationDenied env ctx accessControl then
    ⟨false, some "File access is restricted from your location"⟩
  else if fileExpired env accessControl then
    ⟨false, some "File access has expired"⟩
  else ⟨true, none⟩

/-- `checkTimeRule(config, request)`. -/
def checkTimeRule (env : Env) (config : RuleConfig) : Decision :=
  if timeOutsideWindow env config.startTime config.endTime then
    ⟨false, some ("Access is restricted to " ++ config.startTime ++ " - "
      ++ config.endTime)⟩
  else ⟨true, none⟩

/-- `checkLocationRule(config, request)`: denies when the geo lookup
yields nothing or the country is not in the configured list. -/
def checkLocationRule (env : Env) (ctx : RequestContext)
    (config : RuleConfig) : Decision :=
  match env.geoLookup ctx.clientIP with
  | none => ⟨false, some "Unable to determine location"⟩
  | some country =>
      if config.countries.isSome &&
          ! ((config.countries.getD []).contains country) then
        ⟨false, some ("Access is restricted from " ++ country)⟩
      else ⟨true, none⟩

/-- `checkDeviceRule(config, request)`: denies unless an authorized
device row is found; a thrown query error propagates. -/
def checkDeviceRule (env : Env) (ctx : RequestContext) :
    Except String Decision :=
  match env.deviceAuthorized ctx.deviceFingerprint with
  | .error e => .error e
  | .ok false => .ok ⟨false, some "Device is not authorized for access"⟩
  | .ok true => .ok ⟨true, none⟩

/-- `checkRule(rule, request)`: dispatch on `rule.type`; unknown types
are allowed. -/
def checkRule (env : Env) (ctx : RequestContext) (rule : Rule) :
    Except String Decision :=
  if rule.type = "time" then .ok (checkTimeRule env rule.config)
  else if rule.type = "location" then .ok (checkLocationRule env ctx rule.config)
  else if rule.type = "device" then checkDeviceRule env ctx
  else .ok ⟨true, none⟩

/-- The `for (const rule of rules)` loop of `checkAccess`: first denial
short-circuits; a thrown lookup error propagates. -/
def checkRulesLoop (env : Env) (ctx : RequestContext) :
    List Rule → Except String Decision
  | [] => .ok ⟨true, none⟩
  | r :: rs =>
      match checkRule env ctx r with
      | .error e => .error e
      | .ok d => if d.allowed then checkRulesLoop env ctx rs else .ok d

/-- The `try` body of `checkAccess(file, request)`: the rules query
selects only `enabled = true` rows (modelled as a filter), the
file-embedded policy is checked first, then the global rules. -/
def checkAccessE (env : Env) (file : VaultFile) (ctx : RequestContext)
    (allRules : List Rule) : Except String Decision :=
  let rules := allRules.filter (fun r => r.enabled)
  match file.access_control with
  | some ac =>
      let fileAccessResult := checkFileAccessControl env ctx ac
      if !fileAccessResult.allowed then .ok fileAccessResult
      else checkRulesLoop env ctx rules
  | none => checkRulesLoop env ctx rules

/-- `checkAccess(file, request)` with its `catch`: any thrown error
becomes the deny decision `Access control system error`. -/
def checkAccess (env : Env) (file : VaultFile) (ctx : RequestContext)
    (allRules : List Rule) : Decision :=
  match checkAccessE env file ctx allRules with
  | .ok d => d
  | .error _ => ⟨false, some "Access control system error"⟩

end AccessControl

/-- Witness fixture: an environment whose clock reads 60 minutes past
midnight, geo lookup resolves to `US`, device lookup succeeds. -/
def envAllow : Env := Env.mk 60 0 (fun _ => some "US") (fun _ => .ok true)

/-- Witness fixture: a request context. -/
def ctx0 : RequestContext := RequestContext.mk "1.2.3.4" "fp"

/-- Witness fixture: a file policy restricting access to 09:00-17:00. -/
def acTime : FileAccessControl :=
  FileAccessControl.mk true "09:00" "17:00" false none none

/-- Witness fixture: a file policy whose location restriction (allow
only `DE`) and expiration (already expired) would both deny; the
location denial must win. -/
def acLocExp : FileAccessControl :=
  FileAccessControl.mk false "" "" true (some ["DE"]) (some (-1))

/-- Witness fixture: a file policy that is only expired. -/
def acExp : FileAccessControl :=
  FileAccessControl.mk false "" "" false none (some (-1))

/-- Witness fixture: a file policy with no restriction configured. -/
def acNone : FileAccessControl :=
  FileAccessControl.mk false "" "" false none none

/-- Witness fixture: a file carrying `acTime`. -/
def fileWithPolicy : VaultFile := VaultFile.mk "u" (some acTime)

/-- Witness fixture: a file with no embedded policy. -/
def fileNoPolicy : VaultFile := VaultFile.mk "u" none

/-- Witness fixture: a disabled location rule. -/
def ruleDisabled : Rule :=
  Rule.mk "location" false (RuleConfig.mk "" "" (some []))

/-- Witness fixture: an enabled location rule allowing only `DE`. -/
def ruleLocDE : Rule :=
  Rule.mk "location" true (RuleConfig.mk "" "" (some ["DE"]))

/-- Witness fixture: an enabled all-day time rule. -/
def ruleTimeAll : Rule :=
  Rule.mk "time" true (RuleConfig.mk "00:00" "23:59" none)

/-- Witness fixture: an environment whose geo lookup resolves nothing
and whose device lookup throws. -/
def envFail : Env :=
  Env.mk 60 0 (fun _ => none) (fun _ => .error "query failed")

/-- Witness fixture: an enabled device rule. -/
def ruleDevice : Rule := Rule.mk "device" true (RuleConfig.mk "" "" none)

/-- Witness fixture: an environment whose device lookup finds no
authorized device. -/
def envNoDevice : Env :=
  Env.mk 60 0 (fun _ => some "US") (fun _ => .ok false)

/-- `code.toUpperCase().replace(/\s/g, "")` of `verifyBackupCode`
(`src/utils/mfa.js`): uppercase, then strip whitespace. -/
def normalizeCode (code : String) : String :=
  String.mk ((code.data.map Char.toUpper).filter (fun c => !c.isWhitespace))

/-- JS `Array.prototype.indexOf`: index of the first equal element. -/
def listIndexOf : List String → String → Option Nat
  | [], _ => none
  | c :: rest, t => if c == t then some 0 else (listIndexOf rest t).map (· + 1)

/-- `backupCodes.filter((_, i) => i !== index)`. -/
def removeAtIndex (l : List String) (index : Nat) : List String :=
  (l.enum.filter (fun p => p.1 != index)).map Prod.snd

/-- Result record of `verifyBackupCode`. -/
structure BackupResult where
  success : Bool
  remainingCodes : List String
deriving DecidableEq

/-- `verifyBackupCode(backupCodes, code)` (`src/utils/mfa.js`):
normalizes the submitted code, finds its first occurrence, and on a
match returns the pool with the element at that index filtered out;
otherwise returns the pool unchanged. -/
def verifyBackupCode (backupCodes : List String) (code : String) :
    BackupResult :=
  let normalizedCode := normalizeCode code
  match listIndexOf backupCodes normalizedCode with
  | some index => ⟨true, removeAtIndex backupCodes index⟩
  | none => ⟨false, backupCodes⟩

/-- Witness fixture: a 10-code backup pool containing `AB12CD34`. -/
def pool10 : List String :=
  ["AB12CD34", "X1X1X1X1", "X2X2X2X2", "X3X3X3X3", "X4X4X4X4", "X5X5X5X5",
    "X6X6X6X6", "X7X7X7X7", "X8X8X8X8", "X9X9X9X9"]

/-- Modelled from the spec: the 6-digit code of the external speakeasy
TOTP library (`speakeasy.totp`, not part of `src/`), a deterministic
function of the shared secret and the 30-second counter, reduced modulo
10^6 ("30-second time step; code is 6 decimal digits"). -/
def hotp6 (secret : String) (counter : Nat) : Nat :=
  ((secret.data.map Char.toNat).sum * 7919 + counter * 104729 + 17) % 1000000

/-- Modelled from the spec: `generate(secret, time)` — the code of the
time step containing `time` (seconds). -/
def totpGenerate (secret : String) (time : Nat) : Nat :=
  hotp6 secret (time / 30)

/-- Modelled from the spec: `speakeasy.totp.verify` with a step window —
accepts exactly when the token matches the code of some counter within
`window` steps of the current one (checked inclusively on both sides). -/
def totpVerifyWindow (secret : String) (token : Nat) (time window : Nat) :
    Bool :=
  (List.range (2 * window + 1)).any
    (fun k => token == hotp6 secret (time / 30 + k - window))

/-- `verifyMFAToken(secret, token)` (`src/utils/mfa.js`): delegates to
`speakeasy.totp.verify` with `window: 2`; the clock is injected. -/
def verifyMFAToken (secret : String) (token : Nat) (time : Nat) : Bool :=
  totpVerifyWindow secret token time 2

/-- The `user_profiles` fields the MFA code reads. -/
structure Profile where
  mfa_secret : String := ""
  mfa_enabled : Bool := false
  mfa_backup_codes : List String := []
deriving DecidableEq

/-- Which branch of the MFA verification code ran. -/
inductive MfaPath where
  | notRequired
  | missing
  | alreadyEnabled
  | backupPath
  | totpPath
deriving DecidableEq

/-- Observable outcome of one MFA verification call: the branch taken,
the validity verdict, and the backup pool to persist. -/
structure VerifyOutcome where
  path : MfaPath
  isValid : Bool
  remainingBackupCodes : List String
deriving DecidableEq

/-- The decision core of the `POST /mfa/verify` handler
(`src/routes/access-control.js`): body fields modelled as `Option`
(`none` = absent/falsy); the TOTP code is the parsed 6-digit number and
the clock is injected.  Source order: missing-credential check,
already-enabled check, then `if (backupCode) ... else if (token) ...`. -/
def mfaVerifyHandler (now : Nat) (profile : Profile) (token : Option Nat)
    (backupCode : Option String) : VerifyOutcome :=
  if token.isNone && backupCode.isNone then
    ⟨.missing, false, profile.mfa_backup_codes⟩
  else if profile.mfa_enabled then
    ⟨.alreadyEnabled, false, profile.mfa_backup_codes⟩
  else
    match backupCode with
    | some bc =>
        let backupResult := verifyBackupCode profile.mfa_backup_codes bc
        ⟨.backupPath, backupResult.success, backupResult.remainingCodes⟩
    | none =>
        match token with
        | some tk =>
            ⟨.totpPath, verifyMFAToken profile.mfa_secret tk now,
              profile.mfa_backup_codes⟩
        | none => ⟨.missing, false, profile.mfa_backup_codes⟩

/-- The action allow-list of `isMFARequired` (`src/utils/mfa.js`). -/
def mfaRequiredActions : List String :=
  ["file_upload", "file_download", "file_delete", "file_share",
    "file_encrypt", "file_decrypt", "settings_change", "password_change"]

/-- `isMFARequired(userProfile, action)` (`src/utils/mfa.js`). -/
def isMFARequired (userProfile : Option Profile) (action : String) : Bool :=
  match userProfile with
  | none => false
  | some p => if !p.mfa_enabled then false
      else mfaRequiredActions.contains action

/-- The decision core of the `mfaCheck(action)` middleware
(`src/middleware/error-handler.js`): skip when MFA is not required,
challenge when no credential is supplied, then
`if (backupCode) ... else if (mfaToken) ...`. -/
def mfaCheck (now : Nat) (profile : Profile) (action : String)
    (mfaToken : Option Nat) (backupCode : Option String) : VerifyOutcome :=
  if !(isMFARequired (some profile) action) then
    ⟨.notRequired, false, profile.mfa_backup_codes⟩
  else if mfaToken.isNone && backupCode.isNone then
    ⟨.missing, false, profile.mfa_backup_codes⟩
  else
    match backupCode with
    | some bc =>
        let backupResult := verifyBackupCode profile.mfa_backup_codes bc
        ⟨.backupPath, backupResult.success, backupResult.remainingCodes⟩
    | none =>
        match mfaToken with
        | some tk =>
            ⟨.totpPath, verifyMFAToken profile.mfa_secret tk now,
              profile.mfa_backup_codes⟩
        | none => ⟨.missing, false, profile.mfa_backup_codes⟩

/-- One base-36 digit as the character `0-9a-z`. -/
def base36Char (d : Nat) : Char :=
  if d < 10 then Char.ofNat (48 + d) else Char.ofNat (97 + (d - 10))

/-- Models `Math.random().toString(36)` (external primitive): the RNG
draw is injected as the base-36 fractional-digit list of the drawn
double (trailing zeros trimmed, empty for 0); the rendered string is
`"0." + digits` (just `"0"` for zero). -/
def randomToString36 (digits : List Nat) : List Char :=
  match digits with
  | [] => ['0']
  | d :: rest => '0' :: '.' :: (d :: rest).map base36Char

/-- One loop body of `generateBackupCodes`:
`Math.random().toString(36).substring(2, 10).toUpperCase()`. -/
def backupCodeOfDraw (digits : List Nat) : String :=
  String.mk ((((randomToString36 digits).drop 2).take 8).map Char.toUpper)

/-- `generateBackupCodes(count)` (`src/utils/mfa.js`): `count` codes,
the i-th built from the i-th RNG draw. -/
def generateBackupCodes (count : Nat) (draws : List (List Nat)) :
    List String :=
  (List.range count).map (fun i => backupCodeOfDraw (draws.getD i []))

theorem pbkdf2Sync_length (pw : String) (s : Bytes) (it n : Nat) (d : String) :
    (pbkdf2Sync pw s it n d).length = n := by
  simp [pbkdf2Sync]

theorem keystream_length (k iv : Bytes) (n : Nat) :
    (keystream k iv n).length = n := by
  simp [keystream]

theorem mkTag_length (k iv a c : Bytes) : (mkTag k iv a c).length = 16 := by
  simp [mkTag]

theorem xorBytes_length (a b : Bytes) :
    (xorBytes a b).length = min a.length b.length := by
  simp [xorBytes]

theorem xorBytes_xorBytes (p : Bytes) :
    ∀ k : Bytes, p.length ≤ k.length → xorBytes (xorBytes p k) k = p := by
  induction p with
  | nil => intro k _; rfl
  | cons x xs ih =>
      intro k hk
      cases k with
      | nil => simp at hk
      | cons y ys =>
          simp only [xorBytes, List.zipWith] at *
          rw [Nat.xor_assoc, Nat.xor_self, Nat.xor_zero,
            ih ys (Nat.le_of_succ_le_succ hk)]

/-- Parsing a four-segment concatenation at the segment boundaries
returns the segments. -/
theorem parse4 (A B C D : Bytes) (a b c : Nat)
    (hA : A.length = a) (hB : B.length = b) (hC : C.length = c) :
    (A ++ (B ++ (C ++ D))).take a = A ∧
    ((A ++ (B ++ (C ++ D))).drop a).take b = B ∧
    ((A ++ (B ++ (C ++ D))).drop (a + b)).take c = C ∧
    (A ++ (B ++ (C ++ D))).drop (a + b + c) = D := by
  subst hA hB hC
  refine ⟨?_, ?_, ?_, ?_⟩
  · simp
  · simp
  · rw [show A.length + B.length = (A ++ B).length by simp, ← List.append_assoc,
      List.drop_left]
    simp
  · rw [show A.length + B.length + C.length = (A ++ B ++ C).length by
      simp [Nat.add_assoc], ← List.append_assoc, ← List.append_assoc,
      List.drop_left]

/-- Password-based round trip: with a 64-byte effective salt and a
16-byte IV, `encryptFileBuffer` succeeds and `decryptFileBuffer`
recovers the plaintext. -/
theorem roundTrip_aux (P : Bytes) (pw : String) (saltOpt : Option Bytes)
    (rs ivR : Bytes) (hs : (saltOpt.getD rs).length = 64)
    (hiv : ivR.length = 16) :
    ∃ r : EncryptResult, encryptFileBuffer P pw saltOpt rs ivR = .ok r ∧
      decryptFileBuffer r.encryptedData pw = .ok P := by
  have hiv0 : ivR.length ≠ 0 := by omega
  set fs := saltOpt.getD rs with hfs
  set key := pbkdf2Sync pw fs 100000 32 "sha512" with hkeydef
  set ks := keystream key ivR P.length with hksdef
  set ct := xorBytes P ks with hctdef
  set tag := mkTag key ivR aadFile ct with htagdef
  have hkey : key.length = 32 := pbkdf2Sync_length pw fs 100000 32 "sha512"
  have hks : ks.length = P.length := keystream_length key ivR P.length
  have hct : ct.length = P.length := by
    rw [hctdef, xorBytes_length, hks, Nat.min_self]
  have htag : tag.length = 16 := mkTag_length key ivR aadFile ct
  refine ⟨⟨fs ++ (ivR ++ (tag ++ ct)), fs, ivR, tag⟩, ?_, ?_⟩
  · simp [encryptFileBuffer, nodeGcmEncrypt, hkey, hiv0, ← hfs, ← hkeydef,
      ← hksdef, ← hctdef, ← htagdef]
  · obtain ⟨h1, h2, h3, h4⟩ := parse4 fs ivR tag ct 64 16 16 hs hiv htag
    have h3' : ((fs ++ (ivR ++ (tag ++ ct))).drop 80).take 16 = tag := by
      simpa using h3
    have h4' : (fs ++ (ivR ++ (tag ++ ct))).drop 96 = ct := by
      simpa using h4
    simp only [decryptFileBuffer, h1, h2, h3', h4', ← hkeydef]
    rw [nodeGcmDecrypt,
      if_neg (show ¬(List.length key ≠ 32) by simp [hkey]),
      if_neg (show ¬(List.length ivR = 0) from hiv0),
      if_neg (show ¬(List.length tag ≠ 16) by simp [htag]),
      if_neg (show ¬(tag ≠ mkTag key ivR aadFile ct) by simp [htagdef])]
    have hret : xorBytes ct ks = P := by
      rw [hctdef]; exact xorBytes_xorBytes P ks (by rw [hks])
    simp [hct, ← hksdef, hret]

/-- Raw-key round trip for `FileEncryption`: with a 32-byte decoded key,
a 12-byte IV and a 16-byte salt, `encrypt` succeeds and `decrypt`
recovers the plaintext. -/
theorem fe_roundTrip_aux (P : Bytes) (key : String) (ivR saltR : Bytes)
    (hk : (bufferFromBase64 key).length = 32) (hiv : ivR.length = 12)
    (hs : saltR.length = 16) :
    ∃ r : FileEncryption.FEResult,
      FileEncryption.encrypt P key ivR saltR = .ok r ∧
      FileEncryption.decrypt r.encryptedData key = .ok P := by
  have hiv0 : ivR.length ≠ 0 := by omega
  set kb := bufferFromBase64 key with hkbdef
  set ks := keystream kb ivR P.length with hksdef
  set ct := xorBytes P ks with hctdef
  set tag := mkTag kb ivR [] ct with htagdef
  have hks : ks.length = P.length := keystream_length kb ivR P.length
  have hct : ct.length = P.length := by
    rw [hctdef, xorBytes_length, hks, Nat.min_self]
  have htag : tag.length = 16 := mkTag_length kb ivR [] ct
  refine ⟨⟨saltR ++ (ivR ++ (tag ++ ct)), saltR, ivR, tag, "aes-256-gcm"⟩, ?_, ?_⟩
  · simp [FileEncryption.encrypt, nodeGcmEncrypt, hk, hiv0, ← hkbdef,
      ← hksdef, ← hctdef, ← htagdef]
  · obtain ⟨h1, h2, h3, h4⟩ := parse4 saltR ivR tag ct 16 12 16 hs hiv htag
    have h3' : ((saltR ++ (ivR ++ (tag ++ ct))).drop 28).take 16 = tag := by
      simpa using h3
    have h4' : (saltR ++ (ivR ++ (tag ++ ct))).drop 44 = ct := by
      simpa using h4
    simp only [FileEncryption.decrypt, FileEncryption.SALT_LENGTH,
      FileEncryption.IV_LENGTH, FileEncryption.TAG_LENGTH,
      show (16 : Nat) + 12 = 28 by norm_num,
      show (16 : Nat) + 12 + 16 = 44 by norm_num, h2, h3', h4', ← hkbdef]
    rw [nodeGcmDecrypt,
      if_neg (show ¬(List.length kb ≠ 32) by simp [hk]),
      if_neg (show ¬(List.length ivR = 0) from hiv0),
      if_neg (show ¬(List.length tag ≠ 16) by simp [htag]),
      if_neg (show ¬(tag ≠ mkTag kb ivR [] ct) by simp [htagdef])]
    have hret : xorBytes ct ks = P := by
      rw [hctdef]; exact xorBytes_xorBytes P ks (by rw [hks])
    simp [hct, ← hksdef, hret]

/-- C1: for every plaintext buffer `P` and password `pw`, decrypting the
envelope produced by `encryptFileBuffer(P, pw)` with the same password
returns exactly `P`; likewise `FileEncryption.decrypt` inverts
`FileEncryption.encrypt` for every valid 32-byte raw key. -/
theorem c1_encrypt_decrypt_round_trip (P : Bytes) (pw key : String)
    (randSalt randIv feIv feSalt : Bytes)
    (h1 : randSalt.length = 64) (h2 : randIv.length = 16)
    (h3 : (bufferFromBase64 key).length = 32) (h4 : feIv.length = 12)
    (h5 : feSalt.length = 16) :
    (∃ r : EncryptResult, encryptFileBuffer P pw none randSalt randIv = .ok r ∧
        decryptFileBuffer r.encryptedData pw = .ok P) ∧
    (∃ r : FileEncryption.FEResult,
        FileEncryption.encrypt P key feIv feSalt = .ok r ∧
        FileEncryption.decrypt r.encryptedData key = .ok P) :=
  ⟨roundTrip_aux P pw none randSalt randIv h1 h2,
    fe_roundTrip_aux P key feIv feSalt h3 h4 h5⟩

/-- Concrete instance of C1: a 2-byte plaintext, password `"p"`, the
all-`A` base64 key (32 zero bytes), concrete salts and IVs. -/
theorem c1_witness :
    (∃ r : EncryptResult,
        encryptFileBuffer [104, 105] "p" none (List.replicate 64 0)
          (List.replicate 16 1) = .ok r ∧
        decryptFileBuffer r.encryptedData "p" = .ok [104, 105]) ∧
    (∃ r : FileEncryption.FEResult,
        FileEncryption.encrypt [104, 105]
          (String.mk (List.replicate 43 'A') ++ "=") (List.replicate 12 2)
          (List.replicate 16 3) = .ok r ∧
        FileEncryption.decrypt r.encryptedData
          (String.mk (List.replicate 43 'A') ++ "=") = .ok [104, 105]) :=
  c1_encrypt_decrypt_round_trip [104, 105] "p"
    (String.mk (List.replicate 43 'A') ++ "=") (List.replicate 64 0)
    (List.replicate 16 1) (List.replicate 12 2) (List.replicate 16 3)
    (by simp) (by simp) (by decide) (by simp) (by simp)

theorem flipBit_length (l : Bytes) (i b : Nat) :
    (flipBit l i b).length = l.length := by
  simp [flipBit]

theorem xor_lt_256 {x y : Nat} (hx : x < 256) (hy : y < 256) :
    x ^^^ y < 256 := by
  have h : x ^^^ y < 2 ^ 8 := Nat.bitwise_lt_two_pow hx hy
  simpa using h

theorem keystream_bytes_lt (k iv : Bytes) (n : Nat) :
    ∀ x ∈ keystream k iv n, x < 256 := by
  intro x hx
  simp only [keystream, List.mem_map, List.mem_range] at hx
  obtain ⟨i, -, rfl⟩ := hx
  exact Nat.mod_lt _ (by norm_num)

theorem mkTag_bytes_lt (k iv a c : Bytes) : ∀ x ∈ mkTag k iv a c, x < 256 := by
  intro x hx
  simp only [mkTag, List.mem_cons, List.mem_map, List.mem_range] at hx
  rcases hx with rfl | ⟨i, -, rfl⟩ <;> exact Nat.mod_lt _ (by norm_num)

theorem xorBytes_bytes_lt (a : Bytes) :
    ∀ b : Bytes, (∀ x ∈ a, x < 256) → (∀ x ∈ b, x < 256) →
      ∀ x ∈ xorBytes a b, x < 256 := by
  induction a with
  | nil => intro b _ _ x hx; simp [xorBytes] at hx
  | cons y ys ih =>
      intro b ha hb x hx
      cases b with
      | nil => simp [xorBytes] at hx
      | cons z zs =>
          simp only [xorBytes, List.zipWith, List.mem_cons] at hx
          rcases hx with rfl | hx
          · exact xor_lt_256 (ha y (by simp)) (hb z (by simp))
          · exact ih zs (fun u hu => ha u (by simp [hu]))
              (fun u hu => hb u (by simp [hu])) x hx

/-- Replacing the element at a valid index changes the sum by the
difference of old and new element. -/
theorem sum_set (l : Bytes) :
    ∀ i x, i < l.length → (l.set i x).sum + l.getD i 0 = l.sum + x := by
  induction l with
  | nil => intro i x hi; simp at hi
  | cons a t ih =>
      intro i x hi
      cases i with
      | zero => simp [List.set]; omega
      | succ j =>
          have hj : j < t.length := by simpa using hi
          simp only [List.set, List.sum_cons, List.getD_cons_succ]
          have := ih j x hj
          omega

/-- Flipping one bit (position `< 8`) of one in-range byte changes the
sum of the buffer modulo 256. -/
theorem sum_flipBit_mod (l : Bytes) (i b : Nat) (hi : i < l.length)
    (hb : b < 8) (hl : ∀ x ∈ l, x < 256) :
    (flipBit l i b).sum % 256 ≠ l.sum % 256 := by
  have hmem : l.getD i 0 ∈ l := by
    rw [List.getD_eq_getElem l 0 hi]
    exact List.getElem_mem hi
  have hx : l.getD i 0 < 256 := hl _ hmem
  have hpow : (2 : Nat) ^ b < 256 := by
    calc (2 : Nat) ^ b < 2 ^ 8 := Nat.pow_lt_pow_right (by norm_num) hb
    _ = 256 := by norm_num
  have hx' : l.getD i 0 ^^^ 2 ^ b < 256 := xor_lt_256 hx hpow
  have hne : l.getD i 0 ^^^ 2 ^ b ≠ l.getD i 0 := by
    intro hEq
    have h0 : (2 : Nat) ^ b = 0 := by
      have h1 := congrArg (fun z => l.getD i 0 ^^^ z) hEq
      simp only [Nat.xor_cancel_left, Nat.xor_self] at h1
      exact h1
    exact absurd h0 (Nat.pos_iff_ne_zero.mp (Nat.pos_pow_of_pos b (by norm_num)))
  intro hc
  have hsum := sum_set l i (l.getD i 0 ^^^ 2 ^ b) hi
  have hmodeq : (flipBit l i b).sum ≡ l.sum [MOD 256] := hc
  have h2 : (flipBit l i b).sum + l.getD i 0 ≡ l.sum + l.getD i 0 [MOD 256] :=
    hmodeq.add_right _
  rw [show (flipBit l i b).sum = (l.set i (l.getD i 0 ^^^ 2 ^ b)).sum from rfl,
    hsum] at h2
  have h3 : l.getD i 0 ^^^ 2 ^ b ≡ l.getD i 0 [MOD 256] :=
    Nat.ModEq.add_left_cancel' l.sum (by
      have := h2
      simpa [Nat.add_comm] using this)
  exact hne (by
    have hmod : (l.getD i 0 ^^^ 2 ^ b) % 256 = l.getD i 0 % 256 := h3
    rwa [Nat.mod_eq_of_lt hx', Nat.mod_eq_of_lt hx] at hmod)

theorem mod_add_ne {n : Nat} (K s1 s2 : Nat) (h : s1 % n ≠ s2 % n) :
    (K + s1) % n ≠ (K + s2) % n := by
  intro hc
  exact h (Nat.ModEq.add_left_cancel' K hc)

/-- Two tags over data whose combined checksums differ modulo 256 are
different (their first bytes differ). -/
theorem mkTag_ne_of_sum_ne (k i a c i' c' : Bytes)
    (h : (k.sum + i'.sum + a.sum + c'.sum) % 256 ≠
      (k.sum + i.sum + a.sum + c.sum) % 256) :
    mkTag k i' a c' ≠ mkTag k i a c := by
  intro hEq
  apply h
  have := congrArg (fun l => l.headD 0) hEq
  simpa [mkTag] using this

theorem flipBit_ne (l : Bytes) (i b : Nat) (hi : i < l.length) (hb : b < 8)
    (hl : ∀ x ∈ l, x < 256) : flipBit l i b ≠ l := by
  intro h
  exact sum_flipBit_mod l i b hi hb hl (by rw [h])

/-- `decryptFileBuffer` on a well-segmented envelope whose tag segment
does not match the recomputed tag fails with the wrapped GCM
authentication error. -/
theorem decrypt_auth_fail (A B C D : Bytes) (pw : String)
    (hA : A.length = 64) (hB : B.length = 16) (hC : C.length = 16)
    (hmis : C ≠ mkTag (pbkdf2Sync pw A 100000 32 "sha512") B aadFile D) :
    decryptFileBuffer (A ++ (B ++ (C ++ D))) pw =
      .error "Decryption failed: Unsupported state or unable to authenticate data" := by
  obtain ⟨h1, h2, h3, h4⟩ := parse4 A B C D 64 16 16 hA hB hC
  have h3' : ((A ++ (B ++ (C ++ D))).drop 80).take 16 = C := by simpa using h3
  have h4' : (A ++ (B ++ (C ++ D))).drop 96 = D := by simpa using h4
  simp only [decryptFileBuffer, h1, h2, h3', h4']
  rw [nodeGcmDecrypt,
    if_neg (show ¬(List.length (pbkdf2Sync pw A 100000 32 "sha512") ≠ 32) by
      simp [pbkdf2Sync_length]),
    if_neg (show ¬(List.length B = 0) by rw [hB]; norm_num),
    if_neg (show ¬(List.length C ≠ 16) by simp [hC]),
    if_pos hmis]
  rfl

/-- `FileEncryption.decrypt` on a well-segmented envelope whose tag
segment does not match the recomputed tag fails with the one generic
decryption error. -/
theorem fe_decrypt_auth_fail (A B C D : Bytes) (key : String)
    (hk : (bufferFromBase64 key).length = 32)
    (hA : A.length = 16) (hB : B.length = 12) (hC : C.length = 16)
    (hmis : C ≠ mkTag (bufferFromBase64 key) B [] D) :
    FileEncryption.decrypt (A ++ (B ++ (C ++ D))) key =
      .error "Failed to decrypt file" := by
  obtain ⟨h1, h2, h3, h4⟩ := parse4 A B C D 16 12 16 hA hB hC
  have h3' : ((A ++ (B ++ (C ++ D))).drop 28).take 16 = C := by simpa using h3
  have h4' : (A ++ (B ++ (C ++ D))).drop 44 = D := by simpa using h4
  simp only [FileEncryption.decrypt, FileEncryption.SALT_LENGTH,
    FileEncryption.IV_LENGTH, FileEncryption.TAG_LENGTH,
    show (16 : Nat) + 12 = 28 by norm_num,
    show (16 : Nat) + 12 + 16 = 44 by norm_num, h2, h3', h4']
  rw [nodeGcmDecrypt,
    if_neg (show ¬(List.length (bufferFromBase64 key) ≠ 32) by simp [hk]),
    if_neg (show ¬(List.length B = 0) by rw [hB]; norm_num),
    if_neg (show ¬(List.length C ≠ 16) by simp [hC]),
    if_pos hmis]

/-- C2 (amended): flipping any single bit in the nonce, tag or
ciphertext segment of a produced envelope makes decryption fail —
`decryptFileBuffer` with the (generic, wrapped) authentication error
and `FileEncryption.decrypt` with its one generic decryption error —
and altered plaintext is never returned. -/
theorem c2_tamper_detection (P : Bytes) (pw : String) (saltOpt : Option Bytes)
    (rs ivR : Bytes) (feKey : String) (feIv feSalt : Bytes)
    (hs : (saltOpt.getD rs).length = 64)
    (hiv : ivR.length = 16) (hivb : ∀ x ∈ ivR, x < 256)
    (hP : ∀ x ∈ P, x < 256)
    (hfk : (bufferFromBase64 feKey).length = 32) (hfeiv : feIv.length = 12)
    (hfeivb : ∀ x ∈ feIv, x < 256) (hfesalt : feSalt.length = 16)
    (r : EncryptResult)
    (hr : encryptFileBuffer P pw saltOpt rs ivR = .ok r)
    (fr : FileEncryption.FEResult)
    (hfr : FileEncryption.encrypt P feKey feIv feSalt = .ok fr)
    (j b : Nat) (hb : b < 8) :
    (j < 16 →
      decryptFileBuffer
        (r.salt ++ (flipBit r.iv j b ++ (r.tag ++ r.encryptedData.drop 96))) pw =
        .error "Decryption failed: Unsupported state or unable to authenticate data") ∧
    (j < 16 →
      decryptFileBuffer
        (r.salt ++ (r.iv ++ (flipBit r.tag j b ++ r.encryptedData.drop 96))) pw =
        .error "Decryption failed: Unsupported state or unable to authenticate data") ∧
    (j < P.length →
      decryptFileBuffer
        (r.salt ++ (r.iv ++ (r.tag ++ flipBit (r.encryptedData.drop 96) j b))) pw =
        .error "Decryption failed: Unsupported state or unable to authenticate data") ∧
    (j < 12 →
      FileEncryption.decrypt
        (fr.metadata.salt ++ (flipBit fr.metadata.iv j b ++
          (fr.metadata.tag ++ fr.encryptedData.drop 44))) feKey =
        .error "Failed to decrypt file") ∧
    (j < 16 →
      FileEncryption.decrypt
        (fr.metadata.salt ++ (fr.metadata.iv ++
          (flipBit fr.metadata.tag j b ++ fr.encryptedData.drop 44))) feKey =
        .error "Failed to decrypt file") ∧
    (j < P.length →
      FileEncryption.decrypt
        (fr.metadata.salt ++ (fr.metadata.iv ++
          (fr.metadata.tag ++ flipBit (fr.encryptedData.drop 44) j b))) feKey =
        .error "Failed to decrypt file") := by
  have hiv0 : ivR.length ≠ 0 := by omega
  have hfeiv0 : feIv.length ≠ 0 := by omega
  simp [encryptFileBuffer, nodeGcmEncrypt, pbkdf2Sync_length, hiv0] at hr
  subst hr
  simp [FileEncryption.encrypt, nodeGcmEncrypt, hfk, hfeiv0] at hfr
  subst hfr
  set fs := saltOpt.getD rs with hfs
  set key := pbkdf2Sync pw fs 100000 32 "sha512" with hkeyd
  set ks := keystream key ivR P.length with hksd
  set ct := xorBytes P ks with hctd
  set tag := mkTag key ivR aadFile ct with htagd
  have hctl : ct.length = P.length := by
    rw [hctd, xorBytes_length, hksd, keystream_length, Nat.min_self]
  have htagl : tag.length = 16 := mkTag_length key ivR aadFile ct
  have hctb : ∀ x ∈ ct, x < 256 := by
    rw [hctd]
    exact xorBytes_bytes_lt P ks hP
      (by rw [hksd]; exact keystream_bytes_lt key ivR P.length)
  have htagb : ∀ x ∈ tag, x < 256 := by
    rw [htagd]; exact mkTag_bytes_lt key ivR aadFile ct
  have hdrop : (fs ++ (ivR ++ (tag ++ ct))).drop 96 = ct :=
    (by simpa using (parse4 fs ivR tag ct 64 16 16 hs hiv htagl).2.2.2)
  set kb := bufferFromBase64 feKey with hkbd
  set ks2 := keystream kb feIv P.length with hks2d
  set ct2 := xorBytes P ks2 with hct2d
  set tag2 := mkTag kb feIv [] ct2 with htag2d
  have hct2l : ct2.length = P.length := by
    rw [hct2d, xorBytes_length, hks2d, keystream_length, Nat.min_self]
  have htag2l : tag2.length = 16 := mkTag_length kb feIv [] ct2
  have hct2b : ∀ x ∈ ct2, x < 256 := by
    rw [hct2d]
    exact xorBytes_bytes_lt P ks2 hP
      (by rw [hks2d]; exact keystream_bytes_lt kb feIv P.length)
  have htag2b : ∀ x ∈ tag2, x < 256 := by
    rw [htag2d]; exact mkTag_bytes_lt kb feIv [] ct2
  have hdrop2 : (feSalt ++ (feIv ++ (tag2 ++ ct2))).drop 44 = ct2 :=
    (by simpa using
      (parse4 feSalt feIv tag2 ct2 16 12 16 hfesalt hfeiv htag2l).2.2.2)
  refine ⟨?_, ?_, ?_, ?_, ?_, ?_⟩
  · intro hj
    have hj' : j < ivR.length := by omega
    have hsum : ivR.sum % 256 ≠ (flipBit ivR j b).sum % 256 :=
      (sum_flipBit_mod ivR j b hj' hb hivb).symm
    have e : ∀ s : Nat,
        key.sum + s + aadFile.sum + ct.sum =
          key.sum + aadFile.sum + ct.sum + s := by
      intro s; ring
    have hmod : (key.sum + ivR.sum + aadFile.sum + ct.sum) % 256 ≠
        (key.sum + (flipBit ivR j b).sum + aadFile.sum + ct.sum) % 256 := by
      rw [e ivR.sum, e (flipBit ivR j b).sum]
      exact mod_add_ne _ _ _ hsum
    have hmis : tag ≠ mkTag key (flipBit ivR j b) aadFile ct := by
      rw [htagd]
      exact mkTag_ne_of_sum_ne key (flipBit ivR j b) aadFile ct ivR ct hmod
    simpa [hdrop] using
      decrypt_auth_fail fs (flipBit ivR j b) tag ct pw hs
        (by rw [flipBit_length, hiv]) htagl (by rw [← hkeyd]; exact hmis)
  · intro hj
    have hj' : j < tag.length := by omega
    have hmis : flipBit tag j b ≠ mkTag key ivR aadFile ct := by
      rw [← htagd]
      exact flipBit_ne tag j b hj' hb htagb
    simpa [hdrop] using
      decrypt_auth_fail fs ivR (flipBit tag j b) ct pw hs hiv
        (by rw [flipBit_length, htagl]) (by rw [← hkeyd]; exact hmis)
  · intro hj
    have hj' : j < ct.length := by omega
    have hsum : ct.sum % 256 ≠ (flipBit ct j b).sum % 256 :=
      (sum_flipBit_mod ct j b hj' hb hctb).symm
    have hmod : (key.sum + ivR.sum + aadFile.sum + ct.sum) % 256 ≠
        (key.sum + ivR.sum + aadFile.sum + (flipBit ct j b).sum) % 256 :=
      mod_add_ne _ _ _ hsum
    have hmis : tag ≠ mkTag key ivR aadFile (flipBit ct j b) := by
      rw [htagd]
      exact mkTag_ne_of_sum_ne key ivR aadFile (flipBit ct j b) ivR ct hmod
    simpa [hdrop] using
      decrypt_auth_fail fs ivR tag (flipBit ct j b) pw hs hiv htagl
        (by rw [← hkeyd]; exact hmis)
  · intro hj
    have hj' : j < feIv.length := by omega
    have hsum : feIv.sum % 256 ≠ (flipBit feIv j b).sum % 256 :=
      (sum_flipBit_mod feIv j b hj' hb hfeivb).symm
    have e : ∀ s : Nat,
        kb.sum + s + ([] : Bytes).sum + ct2.sum =
          kb.sum + ([] : Bytes).sum + ct2.sum + s := by
      intro s; ring
    have hmod : (kb.sum + feIv.sum + ([] : Bytes).sum + ct2.sum) % 256 ≠
        (kb.sum + (flipBit feIv j b).sum + ([] : Bytes).sum + ct2.sum)
          % 256 := by
      rw [e feIv.sum, e (flipBit feIv j b).sum]
      exact mod_add_ne _ _ _ hsum
    have hmis : tag2 ≠ mkTag kb (flipBit feIv j b) [] ct2 := by
      rw [htag2d]
      exact mkTag_ne_of_sum_ne kb (flipBit feIv j b) [] ct2 feIv ct2 hmod
    simpa [hdrop2] using
      fe_decrypt_auth_fail feSalt (flipBit feIv j b) tag2 ct2 feKey
        (by rw [← hkbd]; exact hfk) hfesalt
        (by rw [flipBit_length, hfeiv]) htag2l
        (by rw [← hkbd]; exact hmis)
  · intro hj
    have hj' : j < tag2.length := by omega
    have hmis : flipBit tag2 j b ≠ mkTag kb feIv [] ct2 := by
      rw [← htag2d]
      exact flipBit_ne tag2 j b hj' hb htag2b
    simpa [hdrop2] using
      fe_decrypt_auth_fail feSalt feIv (flipBit tag2 j b) ct2 feKey
        (by rw [← hkbd]; exact hfk) hfesalt hfeiv
        (by rw [flipBit_length, htag2l]) (by rw [← hkbd]; exact hmis)
  · intro hj
    have hj' : j < ct2.length := by omega
    have hsum : ct2.sum % 256 ≠ (flipBit ct2 j b).sum % 256 :=
      (sum_flipBit_mod ct2 j b hj' hb hct2b).symm
    have hmod : (kb.sum + feIv.sum + ([] : Bytes).sum + ct2.sum) % 256 ≠
        (kb.sum + feIv.sum + ([] : Bytes).sum + (flipBit ct2 j b).sum)
          % 256 :=
      mod_add_ne _ _ _ hsum
    have hmis : tag2 ≠ mkTag kb feIv [] (flipBit ct2 j b) := by
      rw [htag2d]
      exact mkTag_ne_of_sum_ne kb feIv [] (flipBit ct2 j b) feIv ct2 hmod
    simpa [hdrop2] using
      fe_decrypt_auth_fail feSalt feIv tag2 (flipBit ct2 j b) feKey
        (by rw [← hkbd]; exact hfk) hfesalt hfeiv htag2l
        (by rw [← hkbd]; exact hmis)

/-- Concrete instance of C2: a 2-byte plaintext, flipping bit 0 of the
first nonce byte, of the first tag byte, and of the first ciphertext
byte, in an `encryptFileBuffer` envelope (password `"p"`) and in a
`FileEncryption.encrypt` envelope (the all-`A` base64 key). -/
theorem c2_witness :
    ∃ (r : EncryptResult) (fr : FileEncryption.FEResult),
      encryptFileBuffer [1, 2] "p" none (List.replicate 64 0)
        (List.replicate 16 0) = .ok r ∧
      FileEncryption.encrypt [1, 2] (String.mk (List.replicate 43 'A') ++ "=")
        (List.replicate 12 0) (List.replicate 16 0) = .ok fr ∧
      decryptFileBuffer
        (r.salt ++ (flipBit r.iv 0 0 ++ (r.tag ++ r.encryptedData.drop 96))) "p" =
        .error "Decryption failed: Unsupported state or unable to authenticate data" ∧
      decryptFileBuffer
        (r.salt ++ (r.iv ++ (flipBit r.tag 0 0 ++ r.encryptedData.drop 96))) "p" =
        .error "Decryption failed: Unsupported state or unable to authenticate data" ∧
      decryptFileBuffer
        (r.salt ++ (r.iv ++ (r.tag ++ flipBit (r.encryptedData.drop 96) 0 0))) "p" =
        .error "Decryption failed: Unsupported state or unable to authenticate data" ∧
      FileEncryption.decrypt
        (fr.metadata.salt ++ (flipBit fr.metadata.iv 0 0 ++
          (fr.metadata.tag ++ fr.encryptedData.drop 44)))
        (String.mk (List.replicate 43 'A') ++ "=") =
        .error "Failed to decrypt file" ∧
      FileEncryption.decrypt
        (fr.metadata.salt ++ (fr.metadata.iv ++
          (flipBit fr.metadata.tag 0 0 ++ fr.encryptedData.drop 44)))
        (String.mk (List.replicate 43 'A') ++ "=") =
        .error "Failed to decrypt file" ∧
      FileEncryption.decrypt
        (fr.metadata.salt ++ (fr.metadata.iv ++
          (fr.metadata.tag ++ flipBit (fr.encryptedData.drop 44) 0 0)))
        (String.mk (List.replicate 43 'A') ++ "=") =
        .error "Failed to decrypt file" := by
  obtain ⟨r, hr, -⟩ :=
    roundTrip_aux [1, 2] "p" none (List.replicate 64 0) (List.replicate 16 0)
      (by simp) (by simp)
  obtain ⟨fr, hfr, -⟩ :=
    fe_roundTrip_aux [1, 2] (String.mk (List.replicate 43 'A') ++ "=")
      (List.replicate 12 0) (List.replicate 16 0) (by rfl) (by simp) (by simp)
  have h := c2_tamper_detection [1, 2] "p" none (List.replicate 64 0)
    (List.replicate 16 0) (String.mk (List.replicate 43 'A') ++ "=")
    (List.replicate 12 0) (List.replicate 16 0) (by simp) (by simp)
    (by decide) (by decide) (by rfl) (by simp) (by decide) (by simp) r hr
    fr hfr 0 0 (by norm_num)
  exact ⟨r, fr, hr, hfr, h.1 (by norm_num), h.2.1 (by norm_num),
    h.2.2.1 (by norm_num), h.2.2.2.1 (by norm_num),
    h.2.2.2.2.1 (by norm_num), h.2.2.2.2.2 (by norm_num)⟩

/-- Counterexample to the error-taxonomy part of C2:
`FileEncryption.decrypt` returns the one identical error value for a
malformed (1-byte) envelope, for a key of the wrong length, and for a
tampered tag of a well-formed envelope — it does not report distinct
error kinds. -/
theorem c2_counterexample :
    FileEncryption.decrypt [0] (String.mk (List.replicate 43 'A') ++ "=") =
      Except.error "Failed to decrypt file" ∧
    FileEncryption.decrypt [0] "" = Except.error "Failed to decrypt file" ∧
    (FileEncryption.encrypt [1, 2] (String.mk (List.replicate 43 'A') ++ "=")
        (List.replicate 12 0) (List.replicate 16 0)).map
      (fun r => FileEncryption.decrypt (flipBit r.encryptedData 28 0)
        (String.mk (List.replicate 43 'A') ++ "=")) =
      Except.ok (Except.error "Failed to decrypt file") := by
  refine ⟨by rfl, by rfl, by rfl⟩

theorem nodeGcmDecrypt_ok_inv (k i t a c out : Bytes)
    (h : nodeGcmDecrypt k i t a c = .ok out) :
    t.length = 16 ∧ out.length = c.length := by
  unfold nodeGcmDecrypt at h
  by_cases h1 : k.length ≠ 32
  · rw [if_pos h1] at h; exact absurd h (by simp)
  rw [if_neg h1] at h
  by_cases h2 : i.length = 0
  · rw [if_pos h2] at h; exact absurd h (by simp)
  rw [if_neg h2] at h
  by_cases h3 : t.length ≠ 16
  · rw [if_pos h3] at h; exact absurd h (by simp)
  rw [if_neg h3] at h
  by_cases h4 : t ≠ mkTag k i a c
  · rw [if_pos h4] at h; exact absurd h (by simp)
  rw [if_neg h4] at h
  simp only [Except.ok.injEq] at h
  subst h
  exact ⟨by omega, by rw [xorBytes_length, keystream_length, Nat.min_self]⟩

theorem decryptFileBuffer_ok_inv (env : Bytes) (pw : String) (out : Bytes)
    (h : decryptFileBuffer env pw = .ok out) :
    ((env.drop 80).take 16).length = 16 ∧ out.length = (env.drop 96).length := by
  simp only [decryptFileBuffer] at h
  revert h
  cases hm : nodeGcmDecrypt (pbkdf2Sync pw (env.take 64) 100000 32 "sha512")
      ((env.drop 64).take 16) ((env.drop 80).take 16) aadFile (env.drop 96) with
  | error e => intro h; simp at h
  | ok d =>
      intro h
      simp only [Except.ok.injEq] at h
      subst h
      exact nodeGcmDecrypt_ok_inv _ _ _ _ _ d hm

/-- C10: with a caller-supplied salt, the password round trip holds
exactly when the salt is 64 bytes; for any other salt length the
decryptor misparses the envelope and never returns the plaintext. -/
theorem c10_caller_salt_length (P : Bytes) (pw : String) (salt rs ivR : Bytes)
    (hiv : ivR.length = 16) :
    (salt.length = 64 →
      ∃ r : EncryptResult, encryptFileBuffer P pw (some salt) rs ivR = .ok r ∧
        decryptFileBuffer r.encryptedData pw = .ok P) ∧
    (salt.length ≠ 64 →
      ∀ r : EncryptResult, encryptFileBuffer P pw (some salt) rs ivR = .ok r →
        decryptFileBuffer r.encryptedData pw ≠ .ok P) := by
  constructor
  · intro hs
    exact roundTrip_aux P pw (some salt) rs ivR (by simpa using hs) hiv
  · intro hs r hr hdec
    have hiv0 : ivR.length ≠ 0 := by omega
    simp [encryptFileBuffer, nodeGcmEncrypt, pbkdf2Sync_length, hiv0] at hr
    subst hr
    simp only [] at hdec
    obtain ⟨htl, hol⟩ := decryptFileBuffer_ok_inv _ pw P hdec
    set key := pbkdf2Sync pw salt 100000 32 "sha512"
    set ks := keystream key ivR P.length
    set ct := xorBytes P ks with hctd
    set tag := mkTag key ivR aadFile ct
    have hctl : ct.length = P.length := by
      rw [hctd, xorBytes_length, keystream_length, Nat.min_self]
    have htagl : tag.length = 16 := mkTag_length key ivR aadFile ct
    have henv : (salt ++ (ivR ++ (tag ++ ct))).length =
        salt.length + 32 + P.length := by
      simp only [List.length_append, hiv, htagl, hctl]
      omega
    rw [List.length_take, List.length_drop, henv] at htl
    rw [List.length_drop, henv] at hol
    have h16 : 16 ≤ salt.length + 32 + P.length - 80 := by
      have := min_eq_left_iff.mp htl
      omega
    omega

/-- Concrete instance of C10: a 64-byte caller salt round-trips; a
10-byte caller salt makes decryption miss the plaintext. -/
theorem c10_witness :
    (∃ r : EncryptResult,
      encryptFileBuffer [7] "p" (some (List.replicate 64 0)) []
        (List.replicate 16 1) = .ok r ∧
      decryptFileBuffer r.encryptedData "p" = .ok [7]) ∧
    (∃ r : EncryptResult,
      encryptFileBuffer [7] "p" (some (List.replicate 10 0)) []
        (List.replicate 16 1) = .ok r ∧
      decryptFileBuffer r.encryptedData "p" ≠ .ok [7]) := by
  refine ⟨(c10_caller_salt_length [7] "p" (List.replicate 64 0) []
    (List.replicate 16 1) (by simp)).1 (by simp), ?_⟩
  cases hE : encryptFileBuffer [7] "p" (some (List.replicate 10 0)) []
      (List.replicate 16 1) with
  | error e =>
      exact absurd hE (by
        simp [encryptFileBuffer, nodeGcmEncrypt, pbkdf2Sync_length])
  | ok r =>
      exact ⟨r, rfl, (c10_caller_salt_length [7] "p" (List.replicate 10 0) []
        (List.replicate 16 1) (by simp)).2 (by simp) r hE⟩

/-- Counterexample to C7 as stated: the envelope produced by
`encryptFileBuffer` carries a 16-byte nonce (`IV_LENGTH = 16` in
`src/utils/crypto.js`), not a 12-byte one. -/
theorem c7_counterexample :
    (encryptFileBuffer [1, 2, 3, 4] "pw" none (List.replicate 64 0)
        (List.replicate 16 0)).map (fun r => r.iv.length) = .ok 16 ∧
    (16 : Nat) ≠ 12 := ⟨by rfl, by decide⟩

/-- C7 (amended): `encryptFileBuffer` envelopes carry a 16-byte nonce
and `FileEncryption.encrypt` envelopes a 12-byte nonce, both with a
16-byte tag; in both ciphers the nonce is exactly the fresh random draw
of that call, so two calls with different draws produce different
nonces. -/
theorem c7_nonce_freshness (P : Bytes) (pw key : String)
    (salt ivA ivB feIv1 feIv2 feSalt : Bytes)
    (hA : ivA.length = 16) (hB : ivB.length = 16)
    (hk : (bufferFromBase64 key).length = 32)
    (h1 : feIv1.length = 12) (h2 : feIv2.length = 12) :
    (∀ r : EncryptResult, encryptFileBuffer P pw none salt ivA = .ok r →
      r.iv = ivA ∧ r.iv.length = 16 ∧ r.tag.length = 16) ∧
    (∀ r1 r2 : EncryptResult, encryptFileBuffer P pw none salt ivA = .ok r1 →
      encryptFileBuffer P pw none salt ivB = .ok r2 → ivA ≠ ivB →
      r1.iv ≠ r2.iv) ∧
    (∀ r : FileEncryption.FEResult,
      FileEncryption.encrypt P key feIv1 feSalt = .ok r →
      r.metadata.iv = feIv1 ∧ r.metadata.iv.length = 12 ∧
        r.metadata.tag.length = 16) ∧
    (∀ r1 r2 : FileEncryption.FEResult,
      FileEncryption.encrypt P key feIv1 feSalt = .ok r1 →
      FileEncryption.encrypt P key feIv2 feSalt = .ok r2 → feIv1 ≠ feIv2 →
      r1.metadata.iv ≠ r2.metadata.iv) := by
  have hA0 : ivA.length ≠ 0 := by omega
  have hB0 : ivB.length ≠ 0 := by omega
  have h10 : feIv1.length ≠ 0 := by omega
  have h20 : feIv2.length ≠ 0 := by omega
  refine ⟨?_, ?_, ?_, ?_⟩
  · intro r hr
    simp [encryptFileBuffer, nodeGcmEncrypt, pbkdf2Sync_length, hA0] at hr
    subst hr
    exact ⟨rfl, hA, mkTag_length _ _ _ _⟩
  · intro r1 r2 hr1 hr2 hne
    simp [encryptFileBuffer, nodeGcmEncrypt, pbkdf2Sync_length, hA0] at hr1
    simp [encryptFileBuffer, nodeGcmEncrypt, pbkdf2Sync_length, hB0] at hr2
    subst hr1
    subst hr2
    simpa using hne
  · intro r hr
    simp [FileEncryption.encrypt, nodeGcmEncrypt, hk, h10] at hr
    subst hr
    exact ⟨rfl, h1, mkTag_length _ _ _ _⟩
  · intro r1 r2 hr1 hr2 hne
    simp [FileEncryption.encrypt, nodeGcmEncrypt, hk, h10] at hr1
    simp [FileEncryption.encrypt, nodeGcmEncrypt, hk, h20] at hr2
    subst hr1
    subst hr2
    simpa using hne

/-- Concrete instance of C7 at 1-byte plaintext with two distinct IV
draws for each cipher. -/
theorem c7_witness :
    (∃ r1 r2 : EncryptResult,
      encryptFileBuffer [9] "p" none (List.replicate 64 0)
        (List.replicate 16 1) = .ok r1 ∧
      encryptFileBuffer [9] "p" none (List.replicate 64 0)
        (List.replicate 16 2) = .ok r2 ∧
      r1.iv = List.replicate 16 1 ∧ r1.iv.length = 16 ∧ r1.tag.length = 16 ∧
      r1.iv ≠ r2.iv) ∧
    (∃ r1 r2 : FileEncryption.FEResult,
      FileEncryption.encrypt [9] (String.mk (List.replicate 43 'A') ++ "=")
        (List.replicate 12 1) (List.replicate 16 0) = .ok r1 ∧
      FileEncryption.encrypt [9] (String.mk (List.replicate 43 'A') ++ "=")
        (List.replicate 12 2) (List.replicate 16 0) = .ok r2 ∧
      r1.metadata.iv = List.replicate 12 1 ∧ r1.metadata.iv.length = 12 ∧
      r1.metadata.tag.length = 16 ∧ r1.metadata.iv ≠ r2.metadata.iv) := by
  have h := c7_nonce_freshness [9] "p"
    (String.mk (List.replicate 43 'A') ++ "=") (List.replicate 64 0)
    (List.replicate 16 1) (List.replicate 16 2) (List.replicate 12 1)
    (List.replicate 12 2) (List.replicate 16 0)
    (by simp) (by simp) (by rfl) (by simp) (by simp)
  constructor
  · cases hE1 : encryptFileBuffer [9] "p" none (List.replicate 64 0)
        (List.replicate 16 1) with
    | error e =>
        exact absurd hE1 (by
          simp [encryptFileBuffer, nodeGcmEncrypt, pbkdf2Sync_length])
    | ok r1 =>
        cases hE2 : encryptFileBuffer [9] "p" none (List.replicate 64 0)
            (List.replicate 16 2) with
        | error e =>
            exact absurd hE2 (by
              simp [encryptFileBuffer, nodeGcmEncrypt, pbkdf2Sync_length])
        | ok r2 =>
            obtain ⟨ha, hb, hc⟩ := h.1 r1 hE1
            exact ⟨r1, r2, rfl, rfl, ha, hb, hc,
              h.2.1 r1 r2 hE1 hE2 (by decide)⟩
  · cases hE1 : FileEncryption.encrypt [9]
        (String.mk (List.replicate 43 'A') ++ "=") (List.replicate 12 1)
        (List.replicate 16 0) with
    | error e =>
        exact absurd hE1 (by
          have hklen : (bufferFromBase64
              "AAAAAAAAAAAAAAAAAAAAAAAAAAAAAAAAAAAAAAAAAAA=").length = 32 := by
            rfl
          simp [FileEncryption.encrypt, nodeGcmEncrypt, hklen])
    | ok r1 =>
        cases hE2 : FileEncryption.encrypt [9]
            (String.mk (List.replicate 43 'A') ++ "=") (List.replicate 12 2)
            (List.replicate 16 0) with
        | error e =>
            exact absurd hE2 (by
              have hklen : (bufferFromBase64
                  "AAAAAAAAAAAAAAAAAAAAAAAAAAAAAAAAAAAAAAAAAAA=").length = 32 := by
                rfl
              simp [FileEncryption.encrypt, nodeGcmEncrypt, hklen])
        | ok r2 =>
            obtain ⟨ha, hb, hc⟩ := h.2.2.1 r1 hE1
            exact ⟨r1, r2, rfl, rfl, ha, hb, hc,
              h.2.2.2 r1 r2 hE1 hE2 (by decide)⟩

theorem checkRulesLoop_all_allow (env : Env) (ctx : RequestContext) :
    ∀ rules : List Rule,
      (∀ r ∈ rules, AccessControl.checkRule env ctx r = .ok ⟨true, none⟩) →
      AccessControl.checkRulesLoop env ctx rules = .ok ⟨true, none⟩ := by
  intro rules
  induction rules with
  | nil => intro _; rfl
  | cons r rs ih =>
      intro h
      have hr := h r (by simp)
      simp only [AccessControl.checkRulesLoop, hr]
      exact ih (fun q hq => h q (by simp [hq]))

theorem checkRulesLoop_append_allow (env : Env) (ctx : RequestContext) :
    ∀ l1 l2 : List Rule,
      (∀ q ∈ l1, AccessControl.checkRule env ctx q = .ok ⟨true, none⟩) →
      AccessControl.checkRulesLoop env ctx (l1 ++ l2) =
        AccessControl.checkRulesLoop env ctx l2 := by
  intro l1
  induction l1 with
  | nil => intro l2 _; rfl
  | cons r rs ih =>
      intro l2 h
      have hr := h r (by simp)
      rw [List.cons_append]
      simp only [AccessControl.checkRulesLoop, hr]
      exact ih l2 (fun q hq => h q (by simp [hq]))

/-- C3: the resource-embedded policy is checked first and inside it the
time restriction is decided first, the location restriction second and
the expiration last, returning the first denial; its denial
short-circuits the global rules; the global rules are then evaluated in
the order given, disabled rules are never evaluated at any position,
the first denial of an enabled rule (after any allowing enabled rules)
is returned, and if nothing denies the decision is allowed. -/
theorem c3_evaluation_order (env : Env) (ctx : RequestContext)
    (file file2 : VaultFile) (ac : FileAccessControl) (r r2 : Rule)
    (l1 l2 : List Rule) (rules : List Rule) (d : Decision) :
    (file.access_control = some ac →
      (AccessControl.checkFileAccessControl env ctx ac).allowed = false →
      AccessControl.checkAccess env file ctx rules =
        AccessControl.checkFileAccessControl env ctx ac) ∧
    ((ac.timeRestriction &&
        AccessControl.timeOutsideWindow env ac.startTime ac.endTime) = true →
      AccessControl.checkFileAccessControl env ctx ac =
        ⟨false, some ("File access is restricted to " ++ ac.startTime
          ++ " - " ++ ac.endTime)⟩) ∧
    ((ac.timeRestriction &&
        AccessControl.timeOutsideWindow env ac.startTime ac.endTime) = false →
      (ac.locationRestriction && ac.allowedCountries.isSome &&
        AccessControl.fileLocationDenied env ctx ac) = true →
      AccessControl.checkFileAccessControl env ctx ac =
        ⟨false, some "File access is restricted from your location"⟩) ∧
    ((ac.timeRestriction &&
        AccessControl.timeOutsideWindow env ac.startTime ac.endTime) = false →
      (ac.locationRestriction && ac.allowedCountries.isSome &&
        AccessControl.fileLocationDenied env ctx ac) = false →
      AccessControl.fileExpired env ac = true →
      AccessControl.checkFileAccessControl env ctx ac =
        ⟨false, some "File access has expired"⟩) ∧
    ((ac.timeRestriction &&
        AccessControl.timeOutsideWindow env ac.startTime ac.endTime) = false →
      (ac.locationRestriction && ac.allowedCountries.isSome &&
        AccessControl.fileLocationDenied env ctx ac) = false →
      AccessControl.fileExpired env ac = false →
      AccessControl.checkFileAccessControl env ctx ac = ⟨true, none⟩) ∧
    (r.enabled = false →
      AccessControl.checkAccess env file2 ctx (l1 ++ r :: l2) =
        AccessControl.checkAccess env file2 ctx (l1 ++ l2)) ∧
    ((∀ ac2, file2.access_control = some ac2 →
        (AccessControl.checkFileAccessControl env ctx ac2).allowed = true) →
      (∀ q ∈ l1, q.enabled = true →
        AccessControl.checkRule env ctx q = .ok ⟨true, none⟩) →
      r2.enabled = true → AccessControl.checkRule env ctx r2 = .ok d →
      d.allowed = false →
      AccessControl.checkAccess env file2 ctx (l1 ++ r2 :: l2) = d) ∧
    ((∀ ac2, file2.access_control = some ac2 →
        (AccessControl.checkFileAccessControl env ctx ac2).allowed = true) →
      (∀ q ∈ rules, q.enabled = true →
        AccessControl.checkRule env ctx q = .ok ⟨true, none⟩) →
      AccessControl.checkAccess env file2 ctx rules = ⟨true, none⟩) := by
  refine ⟨?_, ?_, ?_, ?_, ?_, ?_, ?_, ?_⟩
  · intro h1 h2
    simp [AccessControl.checkAccess, AccessControl.checkAccessE, h1, h2]
  · intro h1
    simp [AccessControl.checkFileAccessControl, h1]
  · intro h1 h2
    simp [AccessControl.checkFileAccessControl, h1, h2]
  · intro h1 h2 h3
    simp [AccessControl.checkFileAccessControl, h1, h2, h3]
  · intro h1 h2 h3
    simp [AccessControl.checkFileAccessControl, h1, h2, h3]
  · intro h
    have hfilter : (l1 ++ r :: l2).filter (fun q => q.enabled) =
        (l1 ++ l2).filter (fun q => q.enabled) := by
      simp [List.filter_append, List.filter_cons, h]
    cases hfc : file2.access_control with
    | none =>
        simp [AccessControl.checkAccess, AccessControl.checkAccessE, hfc,
          hfilter]
    | some ac2 =>
        simp [AccessControl.checkAccess, AccessControl.checkAccessE, hfc,
          hfilter]
  · intro hfp hall hen hrule hd
    have hfl1 : ∀ q ∈ l1.filter (fun q => q.enabled),
        AccessControl.checkRule env ctx q = .ok ⟨true, none⟩ := by
      intro q hq
      rw [List.mem_filter] at hq
      exact hall q hq.1 (by simpa using hq.2)
    have hloop : AccessControl.checkRulesLoop env ctx
        (l1.filter (fun q => q.enabled) ++
          (r2 :: l2).filter (fun q => q.enabled)) = .ok d := by
      rw [checkRulesLoop_append_allow env ctx _ _ hfl1,
        List.filter_cons_of_pos (by simp [hen])]
      simp [AccessControl.checkRulesLoop, hrule, hd]
    cases hfc : file2.access_control with
    | none =>
        simp [AccessControl.checkAccess, AccessControl.checkAccessE, hfc,
          hloop]
    | some ac2 =>
        have hok := hfp ac2 hfc
        simp [AccessControl.checkAccess, AccessControl.checkAccessE, hfc, hok,
          hloop]
  · intro hfp hall
    have hloop := checkRulesLoop_all_allow env ctx
      (rules.filter (fun q => q.enabled))
      (by
        intro q hq
        rw [List.mem_filter] at hq
        exact hall q hq.1 (by simpa using hq.2))
    cases hfc : file2.access_control with
    | none =>
        simp [AccessControl.checkAccess, AccessControl.checkAccessE, hfc,
          hloop]
    | some ac2 =>
        have hok := hfp ac2 hfc
        simp [AccessControl.checkAccess, AccessControl.checkAccessE, hfc, hok,
          hloop]

/-- Concrete instance of C3: the time-restricted file policy denies at
minute 60 and short-circuits the rule list; a policy where both the
location restriction and the expiration would deny returns the
location denial (location before expiration); expiration denies only
third; a policy with nothing to check allows; a disabled rule between
enabled ones is skipped; the first denying enabled rule after an
allowing one is returned; an all-allowing list yields the default
allow. -/
theorem c3_witness :
    AccessControl.checkAccess envAllow fileWithPolicy ctx0 [ruleTimeAll] =
      AccessControl.checkFileAccessControl envAllow ctx0 acTime ∧
    AccessControl.checkFileAccessControl envAllow ctx0 acTime =
      ⟨false, some ("File access is restricted to " ++ "09:00" ++ " - "
        ++ "17:00")⟩ ∧
    AccessControl.checkFileAccessControl envAllow ctx0 acLocExp =
      ⟨false, some "File access is restricted from your location"⟩ ∧
    AccessControl.checkFileAccessControl envAllow ctx0 acExp =
      ⟨false, some "File access has expired"⟩ ∧
    AccessControl.checkFileAccessControl envAllow ctx0 acNone =
      ⟨true, none⟩ ∧
    AccessControl.checkAccess envAllow fileNoPolicy ctx0
        [ruleTimeAll, ruleDisabled, ruleLocDE] =
      AccessControl.checkAccess envAllow fileNoPolicy ctx0
        [ruleTimeAll, ruleLocDE] ∧
    AccessControl.checkAccess envAllow fileNoPolicy ctx0
        [ruleTimeAll, ruleDisabled, ruleLocDE, ruleTimeAll] =
      Decision.mk false (some ("Access is restricted from " ++ "US")) ∧
    AccessControl.checkAccess envAllow fileNoPolicy ctx0 [ruleTimeAll] =
      ⟨true, none⟩ := by
  have hfp : ∀ ac2, fileNoPolicy.access_control = some ac2 →
      (AccessControl.checkFileAccessControl envAllow ctx0 ac2).allowed =
        true := by
    intro ac2 hx
    simp [fileNoPolicy] at hx
  have hA := c3_evaluation_order envAllow ctx0 fileWithPolicy fileNoPolicy
    acTime ruleDisabled ruleLocDE [ruleTimeAll] [ruleLocDE] [ruleTimeAll]
    (Decision.mk false (some ("Access is restricted from " ++ "US")))
  have hB := c3_evaluation_order envAllow ctx0 fileWithPolicy fileNoPolicy
    acLocExp ruleDisabled ruleLocDE [ruleTimeAll, ruleDisabled] [ruleTimeAll]
    [ruleTimeAll]
    (Decision.mk false (some ("Access is restricted from " ++ "US")))
  have hC := c3_evaluation_order envAllow ctx0 fileWithPolicy fileNoPolicy
    acExp ruleDisabled ruleLocDE [] [] [] (Decision.mk true none)
  have hD := c3_evaluation_order envAllow ctx0 fileWithPolicy fileNoPolicy
    acNone ruleDisabled ruleLocDE [] [] [] (Decision.mk true none)
  have hallB : ∀ q ∈ [ruleTimeAll, ruleDisabled], q.enabled = true →
      AccessControl.checkRule envAllow ctx0 q = .ok ⟨true, none⟩ := by
    intro q hq hqe
    rcases List.mem_cons.mp hq with rfl | hq2
    · rfl
    · rw [List.mem_singleton] at hq2
      subst hq2
      exact absurd hqe (by decide)
  refine ⟨hA.1 rfl (by rfl), hA.2.1 (by rfl), hB.2.2.1 (by rfl) (by rfl),
    hC.2.2.2.1 (by rfl) (by rfl) (by rfl),
    hD.2.2.2.2.1 (by rfl) (by rfl) (by rfl), hA.2.2.2.2.2.1 rfl,
    hB.2.2.2.2.2.2.1 hfp hallB rfl (by rfl) rfl, hA.2.2.2.2.2.2.2 hfp ?_⟩
  intro q hq hqe
  rw [List.mem_singleton] at hq
  subst hq
  rfl

/-- C4: every failing injected lookup yields a deny decision with a
reason — a missing geo resolution denies the location rule, a missing
authorized device denies the device rule, and a thrown device-lookup
error surfaces as the system-error deny; an evaluation whose body
throws never returns `allowed = true`. -/
theorem c4_lookup_fail_closed (env : Env) (ctx : RequestContext)
    (file : VaultFile) (config : RuleConfig) (r : Rule) (rs : List Rule)
    (rules : List Rule) (e : String) :
    (env.geoLookup ctx.clientIP = none →
      AccessControl.checkLocationRule env ctx config =
        ⟨false, some "Unable to determine location"⟩) ∧
    (env.deviceAuthorized ctx.deviceFingerprint = .ok false →
      AccessControl.checkDeviceRule env ctx =
        .ok ⟨false, some "Device is not authorized for access"⟩) ∧
    (AccessControl.checkAccessE env file ctx rules = .error e →
      AccessControl.checkAccess env file ctx rules =
        ⟨false, some "Access control system error"⟩) ∧
    (env.deviceAuthorized ctx.deviceFingerprint = .error e →
      file.access_control = none → r.enabled = true → r.type = "device" →
      AccessControl.checkAccess env file ctx (r :: rs) =
        ⟨false, some "Access control system error"⟩) := by
  refine ⟨?_, ?_, ?_, ?_⟩
  · intro h
    simp [AccessControl.checkLocationRule, h]
  · intro h
    simp [AccessControl.checkDeviceRule, h]
  · intro h
    simp [AccessControl.checkAccess, h]
  · intro hdev hfc hen htype
    have hrule : AccessControl.checkRule env ctx r = .error e := by
      simp [AccessControl.checkRule, htype, AccessControl.checkDeviceRule,
        hdev]
    simp [AccessControl.checkAccess, AccessControl.checkAccessE, hfc, hen,
      AccessControl.checkRulesLoop, hrule]

/-- Concrete instance of C4: failing geo lookup denies the location
rule; an unauthorized device denies the device rule; a throwing device
lookup turns the whole evaluation into the system-error deny. -/
theorem c4_witness :
    AccessControl.checkLocationRule envFail ctx0
        (RuleConfig.mk "" "" (some ["US"])) =
      ⟨false, some "Unable to determine location"⟩ ∧
    AccessControl.checkDeviceRule envNoDevice ctx0 =
      .ok ⟨false, some "Device is not authorized for access"⟩ ∧
    AccessControl.checkAccess envFail fileNoPolicy ctx0 [ruleDevice] =
      ⟨false, some "Access control system error"⟩ := by
  have h1 := c4_lookup_fail_closed envFail ctx0 fileNoPolicy
    (RuleConfig.mk "" "" (some ["US"])) ruleDevice [] [ruleDevice]
    "query failed"
  have h2 := c4_lookup_fail_closed envNoDevice ctx0 fileNoPolicy
    (RuleConfig.mk "" "" (some ["US"])) ruleDevice [] [ruleDevice]
    "query failed"
  exact ⟨h1.1 rfl, h2.2.1 rfl, h1.2.2.2 rfl rfl rfl rfl⟩

theorem enumFrom_filter_ne_key (k : Nat) :
    ∀ (l : List String) (n : Nat), k < n →
      ((List.enumFrom n l).filter (fun p => p.1 != k)).map Prod.snd = l := by
  intro l
  induction l with
  | nil => intro n _; rfl
  | cons a t ih =>
      intro n hk
      have hne : (n != k) = true := by
        simp only [bne_iff_ne]
        omega
      simp only [List.enumFrom, List.filter, hne, List.map]
      rw [ih (n + 1) (by omega)]

theorem enumFrom_filter_eraseIdx :
    ∀ (l : List String) (n i : Nat),
      ((List.enumFrom n l).filter (fun p => p.1 != (n + i))).map Prod.snd =
        l.eraseIdx i := by
  intro l
  induction l with
  | nil => intro n i; rfl
  | cons a t ih =>
      intro n i
      cases i with
      | zero =>
          have hself : (n != (n + 0)) = false := by simp
          simp only [List.enumFrom, List.filter, hself, List.eraseIdx]
          exact enumFrom_filter_ne_key n t (n + 1) (by omega)
      | succ j =>
          have hne : (n != (n + (j + 1))) = true := by
            simp only [bne_iff_ne]
            omega
          simp only [List.enumFrom, List.filter, hne, List.map,
            List.eraseIdx]
          rw [show n + (j + 1) = (n + 1) + j by omega, ih (n + 1) j]

theorem removeAtIndex_eq_eraseIdx (l : List String) (i : Nat) :
    removeAtIndex l i = l.eraseIdx i := by
  have h := enumFrom_filter_eraseIdx l 0 i
  simpa [removeAtIndex, List.enum] using h

theorem listIndexOf_eq_none (n : String) :
    ∀ l : List String, n ∉ l → listIndexOf l n = none := by
  intro l
  induction l with
  | nil => intro _; rfl
  | cons a t ih =>
      intro h
      have ha : (a == n) = false := by
        simp only [beq_eq_false_iff_ne]
        intro hx
        exact h (by simp [hx])
      simp only [listIndexOf, ha, if_false]
      rw [ih (fun hx => h (by simp [hx]))]
      rfl

theorem listIndexOf_found (n : String) :
    ∀ l : List String, n ∈ l →
      ∃ i l1 l2, listIndexOf l n = some i ∧ l = l1 ++ n :: l2 ∧ n ∉ l1 ∧
        l.eraseIdx i = l1 ++ l2 := by
  intro l
  induction l with
  | nil => intro h; simp at h
  | cons a t ih =>
      intro h
      by_cases ha : a = n
      · subst ha
        exact ⟨0, [], t, by simp [listIndexOf], by simp, by simp,
          by simp [List.eraseIdx]⟩
      · have hmem : n ∈ t := by
          rcases List.mem_cons.mp h with h1 | h1
          · exact absurd h1.symm ha
          · exact h1
        obtain ⟨i, l1, l2, hfind, hdec, hnot, herase⟩ := ih hmem
        refine ⟨i + 1, a :: l1, l2, ?_, by simp [hdec], ?_, ?_⟩
        · have ha' : (a == n) = false := by
            simp only [beq_eq_false_iff_ne]
            exact ha
          simp [listIndexOf, ha', hfind]
        · intro hx
          rcases List.mem_cons.mp hx with h1 | h1
          · exact ha h1.symm
          · exact hnot h1
        · simp [List.eraseIdx, herase]

/-- C5: `verifyBackupCode` normalizes the submitted string; on a match
it succeeds and removes exactly the first occurrence of that code; on
no match it fails with the pool unchanged; from a 10-code pool holding
the code once, consuming succeeds once and a second consume fails with
the 9-code pool unchanged. -/
theorem c5_backup_code_single_use (pool : List String) (code : String) :
    (normalizeCode code ∈ pool →
      (verifyBackupCode pool code).success = true ∧
      ∃ l1 l2, pool = l1 ++ normalizeCode code :: l2 ∧
        normalizeCode code ∉ l1 ∧
        (verifyBackupCode pool code).remainingCodes = l1 ++ l2) ∧
    (normalizeCode code ∉ pool →
      verifyBackupCode pool code = ⟨false, pool⟩) ∧
    (pool.length = 10 → pool.count (normalizeCode code) = 1 →
      (verifyBackupCode pool code).success = true ∧
      (verifyBackupCode pool code).remainingCodes.length = 9 ∧
      verifyBackupCode (verifyBackupCode pool code).remainingCodes code =
        ⟨false, (verifyBackupCode pool code).remainingCodes⟩) := by
  refine ⟨?_, ?_, ?_⟩
  · intro hmem
    obtain ⟨i, l1, l2, hfind, hdec, hnot, herase⟩ :=
      listIndexOf_found (normalizeCode code) pool hmem
    refine ⟨by simp [verifyBackupCode, hfind], l1, l2, hdec, hnot, ?_⟩
    simp [verifyBackupCode, hfind, removeAtIndex_eq_eraseIdx, herase]
  · intro hmem
    simp [verifyBackupCode, listIndexOf_eq_none (normalizeCode code) pool hmem]
  · intro hlen hcount
    have hmem : normalizeCode code ∈ pool := by
      have : 0 < pool.count (normalizeCode code) := by omega
      exact List.count_pos_iff.mp this
    obtain ⟨i, l1, l2, hfind, hdec, hnot, herase⟩ :=
      listIndexOf_found (normalizeCode code) pool hmem
    have hrem : (verifyBackupCode pool code).remainingCodes = l1 ++ l2 := by
      simp [verifyBackupCode, hfind, removeAtIndex_eq_eraseIdx, herase]
    have hcnt : (l1 ++ l2).count (normalizeCode code) = 0 := by
      have h1 : pool.count (normalizeCode code) =
          l1.count (normalizeCode code) + 1 + l2.count (normalizeCode code) := by
        rw [hdec]
        simp [List.count_append, List.count_cons]
        omega
      have h2 : (l1 ++ l2).count (normalizeCode code) =
          l1.count (normalizeCode code) + l2.count (normalizeCode code) := by
        simp [List.count_append]
      omega
    have hnmem : normalizeCode code ∉ l1 ++ l2 := by
      intro hx
      have hpos : 0 < (l1 ++ l2).count (normalizeCode code) :=
        List.count_pos_iff.mpr hx
      omega
    have hlen2 : (l1 ++ l2).length = 9 := by
      have : pool.length = l1.length + 1 + l2.length := by
        rw [hdec]
        simp
        omega
      simp only [List.length_append]
      omega
    refine ⟨by simp [verifyBackupCode, hfind], by rw [hrem]; exact hlen2, ?_⟩
    rw [hrem]
    simp [verifyBackupCode, listIndexOf_eq_none (normalizeCode code) _ hnmem]

/-- Concrete instance of C5: consuming `"ab12 cd34"` (lowercase, with
whitespace) from the 10-code pool succeeds once, leaves 9 codes, and a
second consume fails unchanged; an unknown code leaves the pool
untouched. -/
theorem c5_witness :
    (verifyBackupCode pool10 "ab12 cd34").success = true ∧
    (verifyBackupCode pool10 "ab12 cd34").remainingCodes.length = 9 ∧
    verifyBackupCode (verifyBackupCode pool10 "ab12 cd34").remainingCodes
        "ab12 cd34" =
      ⟨false, (verifyBackupCode pool10 "ab12 cd34").remainingCodes⟩ ∧
    verifyBackupCode pool10 "nope" = ⟨false, pool10⟩ := by
  have h := (c5_backup_code_single_use pool10 "ab12 cd34").2.2
    (by decide) (by decide)
  exact ⟨h.1, h.2.1, h.2.2,
    (c5_backup_code_single_use pool10 "nope").2.1 (by decide)⟩

theorem totpVerifyWindow2_iff (secret : String) (token : Nat) (t' : Nat)
    (h : 2 ≤ t' / 30) :
    totpVerifyWindow secret token t' 2 = true ↔
      ∃ s : Nat, t' / 30 - 2 ≤ s ∧ s ≤ t' / 30 + 2 ∧
        token = hotp6 secret s := by
  unfold totpVerifyWindow
  rw [List.any_eq_true]
  constructor
  · rintro ⟨k, hk, hkp⟩
    rw [List.mem_range] at hk
    rw [beq_iff_eq] at hkp
    exact ⟨t' / 30 + k - 2, by omega, by omega, hkp⟩
  · rintro ⟨s, h1, h2, rfl⟩
    refine ⟨s + 2 - t' / 30, ?_, ?_⟩
    · rw [List.mem_range]; omega
    · rw [beq_iff_eq]
      congr 1
      omega

theorem div30_add60 (t : Nat) : (t + 60) / 30 = t / 30 + 2 := by
  rw [show (60 : Nat) = 2 * 30 by norm_num, Nat.add_mul_div_right _ _
    (by norm_num : (0 : Nat) < 30)]

theorem div30_add90 (t : Nat) : (t + 90) / 30 = t / 30 + 3 := by
  rw [show (90 : Nat) = 3 * 30 by norm_num, Nat.add_mul_div_right _ _
    (by norm_num : (0 : Nat) < 30)]

/-- C8: `verifyMFAToken` accepts exactly the codes of time steps within
the inclusive ±2-step (±60 s) window; the code of time `t` verifies at
`t`, `t + 59` and `t - 59` and fails at `t + 90` (whose window no
longer contains step `t`, absent accidental code collisions). -/
theorem c8_totp_window (secret : String) (t : Nat) (token : Nat)
    (ht : 120 ≤ t) :
    (verifyMFAToken secret token t = true ↔
      ∃ s : Nat, t / 30 - 2 ≤ s ∧ s ≤ t / 30 + 2 ∧
        token = hotp6 secret s) ∧
    verifyMFAToken secret (totpGenerate secret t) t = true ∧
    verifyMFAToken secret (totpGenerate secret t) (t + 59) = true ∧
    verifyMFAToken secret (totpGenerate secret t) (t - 59) = true ∧
    ((∀ s : Nat, (t + 90) / 30 - 2 ≤ s → s ≤ (t + 90) / 30 + 2 →
        hotp6 secret s ≠ totpGenerate secret t) →
      verifyMFAToken secret (totpGenerate secret t) (t + 90) = false) := by
  have hc : 4 ≤ t / 30 := by
    have := Nat.div_le_div_right (c := 30) ht
    simpa using this
  refine ⟨totpVerifyWindow2_iff secret token t (by omega), ?_, ?_, ?_, ?_⟩
  · exact (totpVerifyWindow2_iff secret _ t (by omega)).mpr
      ⟨t / 30, by omega, by omega, rfl⟩
  · have hub : (t + 59) / 30 ≤ t / 30 + 2 := by
      have h1 : (t + 59) / 30 ≤ (t + 60) / 30 :=
        Nat.div_le_div_right (by omega)
      rw [div30_add60] at h1
      exact h1
    have hlb : t / 30 ≤ (t + 59) / 30 := Nat.div_le_div_right (by omega)
    exact (totpVerifyWindow2_iff secret _ (t + 59) (by omega)).mpr
      ⟨t / 30, by omega, by omega, rfl⟩
  · have h60 : t / 30 = (t - 60) / 30 + 2 := by
      have := div30_add60 (t - 60)
      rw [show t - 60 + 60 = t by omega] at this
      exact this
    have hlb : (t - 60) / 30 ≤ (t - 59) / 30 :=
      Nat.div_le_div_right (by omega)
    have hub : (t - 59) / 30 ≤ t / 30 := Nat.div_le_div_right (by omega)
    exact (totpVerifyWindow2_iff secret _ (t - 59) (by omega)).mpr
      ⟨t / 30, by omega, by omega, rfl⟩
  · intro hnc
    cases hb : verifyMFAToken secret (totpGenerate secret t) (t + 90) with
    | false => rfl
    | true =>
        obtain ⟨s, h1, h2, h3⟩ :=
          (totpVerifyWindow2_iff secret _ (t + 90) (by
            rw [div30_add90]; omega)).mp hb
        exact absurd h3.symm (hnc s h1 h2)

/-- Concrete instance of C8 with secret `"S"` and `t = 120`. -/
theorem c8_witness :
    (verifyMFAToken "S" 0 120 = true ↔
      ∃ s : Nat, 120 / 30 - 2 ≤ s ∧ s ≤ 120 / 30 + 2 ∧ 0 = hotp6 "S" s) ∧
    verifyMFAToken "S" (totpGenerate "S" 120) 120 = true ∧
    verifyMFAToken "S" (totpGenerate "S" 120) (120 + 59) = true ∧
    verifyMFAToken "S" (totpGenerate "S" 120) (120 - 59) = true ∧
    verifyMFAToken "S" (totpGenerate "S" 120) (120 + 90) = false := by
  have h := c8_totp_window "S" 120 0 (by norm_num)
  refine ⟨h.1, h.2.1, h.2.2.1, h.2.2.2.1, h.2.2.2.2 ?_⟩
  intro s h1 h2
  norm_num at h1 h2
  interval_cases s <;> decide

/-- Counterexample to C6 as stated: when both a TOTP code and a backup
code are supplied, both the verify handler and the middleware take the
BACKUP path, not the TOTP path — the TOTP path is not tried first. -/
theorem c6_counterexample :
    (mfaVerifyHandler 120 (Profile.mk "S" false ["AB12CD34"]) (some 123456)
        (some "AB12CD34")).path = MfaPath.backupPath ∧
    (mfaCheck 120 (Profile.mk "S" true ["AB12CD34"]) "file_upload"
        (some 123456) (some "AB12CD34")).path = MfaPath.backupPath ∧
    MfaPath.backupPath ≠ MfaPath.totpPath := by
  refine ⟨by decide, by decide, by decide⟩

/-- C6 (amended): per call exactly one branch runs — with no credential
the call errors without verification; when a backup code is supplied
(even together with a TOTP code) the backup-consumption path is taken;
the TOTP path is taken only when no backup code is supplied and a TOTP
code is; same order in the verify handler and in the middleware. -/
theorem c6_mfa_path_order (now : Nat) (profile profile2 : Profile)
    (action : String) (tk : Nat) (bc : String) (tOpt : Option Nat) :
    (mfaVerifyHandler now profile none none).path = .missing ∧
    (profile.mfa_enabled = false →
      (mfaVerifyHandler now profile tOpt (some bc)).path = .backupPath) ∧
    (profile.mfa_enabled = false →
      (mfaVerifyHandler now profile (some tk) none).path = .totpPath) ∧
    (isMFARequired (some profile2) action = true →
      (mfaCheck now profile2 action tOpt (some bc)).path = .backupPath) ∧
    (isMFARequired (some profile2) action = true →
      (mfaCheck now profile2 action (some tk) none).path = .totpPath) := by
  refine ⟨by simp [mfaVerifyHandler], ?_, ?_, ?_, ?_⟩
  · intro h
    cases tOpt <;> simp [mfaVerifyHandler, h]
  · intro h
    simp [mfaVerifyHandler, h]
  · intro h
    cases tOpt <;> simp [mfaCheck, h]
  · intro h
    simp [mfaCheck, h]

/-- Concrete instance of C6 (amended): the handler with MFA being set
up (not yet enabled) and the middleware with MFA enabled, a TOTP code
supplied in every call. -/
theorem c6_witness :
    (mfaVerifyHandler 120 (Profile.mk "S" false ["AB12CD34"]) none none).path
      = MfaPath.missing ∧
    (mfaVerifyHandler 120 (Profile.mk "S" false ["AB12CD34"]) (some 123456)
      (some "AB12CD34")).path = MfaPath.backupPath ∧
    (mfaVerifyHandler 120 (Profile.mk "S" false ["AB12CD34"]) (some 123456)
      none).path = MfaPath.totpPath ∧
    (mfaCheck 120 (Profile.mk "S" true ["AB12CD34"]) "file_upload"
      (some 123456) (some "AB12CD34")).path = MfaPath.backupPath ∧
    (mfaCheck 120 (Profile.mk "S" true ["AB12CD34"]) "file_upload"
      (some 123456) none).path = MfaPath.totpPath := by
  have h := c6_mfa_path_order 120 (Profile.mk "S" false ["AB12CD34"])
    (Profile.mk "S" true ["AB12CD34"]) "file_upload" 123456 "AB12CD34"
    (some 123456)
  exact ⟨h.1, h.2.1 rfl, h.2.2.1 rfl, h.2.2.2.1 (by decide),
    h.2.2.2.2 (by decide)⟩

/-- C9: the generator does return exactly `count` codes, but a code is
NOT always 8 characters: the draw 0.5 (base-36 `"0.i"`) yields the
1-character code `"I"`, contradicting the claim and the source's own
comment (`Generate 8-character alphanumeric codes`). -/
theorem c9_backup_code_length_bug :
    (∀ (count : Nat) (draws : List (List Nat)),
      (generateBackupCodes count draws).length = count) ∧
    generateBackupCodes 1 [[18]] = ["I"] ∧
    ("I".length = 1 ∧ (1 : Nat) ≠ 8) := by
  refine ⟨?_, by decide, by decide⟩
  intro count draws
  simp [generateBackupCodes]
